import Mathlib

/-!
# Symbol-source reconciliation in `DebugAnalysisSettingsWidget`

A shallow embedding of `pcsx2-qt/Settings/DebugAnalysisSettingsWidget.cpp`:
`setupSymbolSourceGrid`, `symbolSourceCheckStateChanged`, `saveSymbolSources`
and `functionScanRangeChanged`, with the settings storage, the dialog and the
symbol-source container they use.

Conventions of the embedding.

* Names are Lean strings; `QString::fromStdString` followed by `toStdString`
  is the identity on them.
* The loop counters of the source are `int`; the model counts in `Nat` and reads
  a stored `Count` as an `Int` (a negative count runs no iteration). A container
  of `2^31` check boxes is outside the model.
* Dereferencing a null `check_box` is a failure: the functions that do it
  return `Option`, and `none` is that failure.
* The header that declares the container type of `m_symbol_sources` is not part of
  the file, so the place a new key takes in the iteration order is a parameter
  (`KeyPlacement`). The statement about iteration order looks at two values of it:
  the insertion order the specification describes and the key order of the
  standard ordered container.
* The settings storage, the dialog and the host are collaborators defined elsewhere;
  they are modelled from the specification's description of them.
-/

namespace DebugAnalysis

/-! ## Settings storage -/

/-- A stored value. -/
inductive SettingValue where
  | int (i : Int)
  | str (s : String)
  | bool (b : Bool)
  deriving DecidableEq

/-- One key of one section of the storage. -/
structure Setting where
  sec : String
  key : String
  value : SettingValue
  deriving DecidableEq

/-- Modelled from the spec: `SettingsInterface` is declared outside this file. The
spec gives its operations, `GetBool/GetString/GetInt(section, key, default)`,
`SetBool/SetString/SetInt` and `RemoveSection(section)`, with absent keys falling
back to the caller's default. The storage is the list of its keys; section names
are flat strings. -/
structure SettingsInterface where
  entries : List Setting
  deriving DecidableEq

namespace SettingsInterface

/-- The stored value of `key` in section `sec`, if any. -/
def lookup (sif : SettingsInterface) (sec key : String) : Option SettingValue :=
  (sif.entries.find? (fun e => e.sec == sec && e.key == key)).map (fun e => e.value)

/-- Stores `v` under `key` of section `sec`, replacing what was there. -/
def store (sif : SettingsInterface) (sec key : String) (v : SettingValue) : SettingsInterface :=
  ⟨sif.entries.filter (fun e => !(e.sec == sec && e.key == key)) ++ [⟨sec, key, v⟩]⟩

def GetIntValue (sif : SettingsInterface) (sec key : String) (default_value : Int) : Int :=
  match sif.lookup sec key with
  | some (.int i) => i
  | _ => default_value

def GetStringValue (sif : SettingsInterface) (sec key : String) (default_value : String) :
    String :=
  match sif.lookup sec key with
  | some (.str s) => s
  | _ => default_value

def GetBoolValue (sif : SettingsInterface) (sec key : String) (default_value : Bool) : Bool :=
  match sif.lookup sec key with
  | some (.bool b) => b
  | _ => default_value

def SetIntValue (sif : SettingsInterface) (sec key : String) (value : Int) : SettingsInterface :=
  sif.store sec key (.int value)

def SetStringValue (sif : SettingsInterface) (sec key : String) (value : String) :
    SettingsInterface :=
  sif.store sec key (.str value)

def SetBoolValue (sif : SettingsInterface) (sec key : String) (value : Bool) :
    SettingsInterface :=
  sif.store sec key (.bool value)

/-- Removes every key of section `sec`. -/
def RemoveSection (sif : SettingsInterface) (sec : String) : SettingsInterface :=
  ⟨sif.entries.filter (fun e => !(e.sec == sec))⟩

/-- Whether the storage holds some key of section `sec`. -/
def hasSection (sif : SettingsInterface) (sec : String) : Bool :=
  sif.entries.any (fun e => e.sec == sec)

end SettingsInterface

/-- The section `"Debugger/Analysis/SymbolSources/" + std::to_string(i)`. -/
def symbolSourceSection (i : Nat) : String :=
  "Debugger/Analysis/SymbolSources/" ++ toString i

/-! ## The symbol-source container -/

/-- A check box of the grid: its label and its state. -/
structure QCheckBox where
  text : String
  checked : Bool
  deriving DecidableEq

/-- The value type of `m_symbol_sources`, with the three fields the source file
uses. `check_box` is a pointer in the source, null until the box is created. -/
structure SymbolSourceTemp where
  check_box : Option QCheckBox
  previous_value : Bool
  modified_by_user : Bool
  deriving DecidableEq

/-- The entries of `m_symbol_sources`, in iteration order. -/
abbrev SymbolSourceMap := List (String × SymbolSourceTemp)

/-- The container type of `m_symbol_sources` is declared in the widget's header,
outside this file, so where it stores a new key is a parameter of the model:
given the new key and the keys held, in iteration order, the position the new
key takes. -/
abbrev KeyPlacement := String → List String → Nat

/-- Modelled from the spec: the container declaration is missing; the spec says that
iteration order is insertion order, so a new key goes last. -/
def insertionOrder : KeyPlacement := fun _ keys => keys.length

/-- A key-ordered container, as `std::map<std::string, T>`: a new key goes after the keys
that are less than it, strings compared character by character. The source reaches
`m_symbol_sources` only through `operator[]`, `find`, `end`, `empty` and iteration over its
`(name, value)` pairs, which is the interface of the standard associative containers. -/
def keyOrder : KeyPlacement :=
  fun name keys => (keys.filter (fun k => decide (k.data < name.data))).length

/-- The keys held, in iteration order. -/
def mapKeys (m : SymbolSourceMap) : List String := m.map Prod.fst

/-- The call `m_symbol_sources.find(name)`: the entry's value, `none` for `end()`. -/
def mapFind (m : SymbolSourceMap) (name : String) : Option SymbolSourceTemp :=
  (m.find? (fun e => e.1 == name)).map Prod.snd

/-- The call `m_symbol_sources[name]` as far as it changes the container: an absent
key is inserted with a fresh entry. The fresh entry has no check box yet; its two flags are
assigned right after every such call in the source, so the values given here are never
read. -/
def mapSubscript (place : KeyPlacement) (m : SymbolSourceMap) (name : String) :
    SymbolSourceMap :=
  match mapFind m name with
  | some _ => m
  | none =>
    let p := place name (mapKeys m)
    m.take p ++ (name, ⟨none, false, false⟩) :: m.drop p

/-- Writes through a reference to the entry of `name`. -/
def mapUpdate (m : SymbolSourceMap) (name : String) (f : SymbolSourceTemp → SymbolSourceTemp) :
    SymbolSourceMap :=
  m.map (fun e => if e.1 == name then (e.1, f e.2) else e)

/-- The statements `SymbolSourceTemp& source = m_symbol_sources[name];
source.previous_value = value; source.modified_by_user = modified;`. -/
def mapAssign (place : KeyPlacement) (m : SymbolSourceMap) (name : String)
    (value modified : Bool) : SymbolSourceMap :=
  mapUpdate (mapSubscript place m name) name
    (fun source => { source with previous_value := value, modified_by_user := modified })

/-! ## The dialog, the host and the widget -/

/-- Modelled from the spec: `SettingsWindow` is declared outside this file. It owns
the settings storage the panel is bound to (`getSettingsInterface()`, possibly
null) and the serial of the game it configures (`getSerial()`). -/
structure SettingsWindow where
  sif : Option SettingsInterface
  serial : String
  deriving DecidableEq

/-- What the widget reads from its surroundings: the host settings layer behind
`Host::Get*SettingValue`, `QtHost::GetCurrentGameSerial()`, the names of
`database.symbol_sources` in the order the database enumerates them, and
`SymbolImporter::ShouldClearSymbolsFromSourceByDefault`. -/
structure Host where
  settings : SettingsInterface
  GetCurrentGameSerial : String
  symbol_sources : List String
  ShouldClearSymbolsFromSourceByDefault : String → Bool

/-- Modelled from the spec: `Host::GetIntSettingValue` is defined outside this file; it reads
the host settings layer with the caller's default for an absent key. -/
def Host.GetIntSettingValue (h : Host) (sec key : String) (default_value : Int) : Int :=
  h.settings.GetIntValue sec key default_value

/-- Modelled from the spec: `Host::GetStringSettingValue`, as `GetIntSettingValue`. -/
def Host.GetStringSettingValue (h : Host) (sec key : String) (default_value : String) :
    String :=
  h.settings.GetStringValue sec key default_value

/-- Modelled from the spec: `Host::GetBoolSettingValue`, as `GetIntSettingValue`. -/
def Host.GetBoolSettingValue (h : Host) (sec key : String) (default_value : Bool) : Bool :=
  h.settings.GetBoolValue sec key default_value

/-- The part of `m_ui` the modelled functions touch. `symbolSourceGrid` lists the
`layout->addWidget(check_box, row, column)` calls in the order they are made, each
box named by its label. -/
structure Ui where
  symbolSourceErrorMessage : String
  symbolSourceErrorMessageHidden : Bool
  symbolSourceScrollAreaHidden : Bool
  symbolSourceGrid : List (String × Nat × Nat)
  addressRangeStart : String
  addressRangeEnd : String
  deriving DecidableEq

structure DebugAnalysisSettingsWidget where
  m_dialog : Option SettingsWindow
  m_symbol_sources : SymbolSourceMap
  m_ui : Ui
  deriving DecidableEq

/-- Modelled from the spec: `SettingsWindow::getEffectiveIntValue` is defined outside
this file; it reads the storage the dialog is bound to, and the host layer when
the dialog has none, with the caller's default for an absent key. -/
def SettingsWindow.getEffectiveIntValue (d : SettingsWindow) (h : Host) (sec key : String)
    (default_value : Int) : Int :=
  match d.sif with
  | some sif => sif.GetIntValue sec key default_value
  | none => h.GetIntSettingValue sec key default_value

/-- Modelled from the spec: `SettingsWindow::getEffectiveStringValue`, as
`getEffectiveIntValue`. -/
def SettingsWindow.getEffectiveStringValue (d : SettingsWindow) (h : Host) (sec key : String)
    (default_value : String) : String :=
  match d.sif with
  | some sif => sif.GetStringValue sec key default_value
  | none => h.GetStringSettingValue sec key default_value

/-- Modelled from the spec: `SettingsWindow::getEffectiveBoolValue`, as
`getEffectiveIntValue`. -/
def SettingsWindow.getEffectiveBoolValue (d : SettingsWindow) (h : Host) (sec key : String)
    (default_value : Bool) : Bool :=
  match d.sif with
  | some sif => sif.GetBoolValue sec key default_value
  | none => h.GetBoolSettingValue sec key default_value

/-! ## `setupSymbolSourceGrid` -/

/-- The body of the first loop of `setupSymbolSourceGrid` for index `i`. -/
def addExistingSymbolSource (place : KeyPlacement) (h : Host) (m_dialog : Option SettingsWindow)
    (m : SymbolSourceMap) (i : Nat) : SymbolSourceMap :=
  let sec := symbolSourceSection i
  let name :=
    match m_dialog with
    | some d => d.getEffectiveStringValue h sec "Name" ""
    | none => h.GetStringSettingValue sec "Name" ""
  let value :=
    match m_dialog with
    | some d => d.getEffectiveBoolValue h sec "ClearDuringAnalysis" false
    | none => h.GetBoolSettingValue sec "ClearDuringAnalysis" false
  mapAssign place m name value true

/-- The body of the loop over `database.symbol_sources`. -/
def addDatabaseSymbolSource (place : KeyPlacement) (h : Host) (m : SymbolSourceMap)
    (name : String) : SymbolSourceMap :=
  if (mapFind m name).isNone && name != "Built-In" then
    mapAssign place m name (h.ShouldClearSymbolsFromSourceByDefault name) false
  else m

/-- The loop that creates the check boxes: entry number `i` of the iteration gets a
box labelled with its name, set to `previous_value`, at row `i / 2`, column
`i % 2`. Returns the container and the `addWidget` calls. -/
def createCheckBoxes : SymbolSourceMap → Nat → SymbolSourceMap × List (String × Nat × Nat)
  | [], _ => ([], [])
  | (name, temp) :: rest, i =>
    let check_box : QCheckBox := ⟨name, temp.previous_value⟩
    let r := createCheckBoxes rest (i + 1)
    ((name, { temp with check_box := some check_box }) :: r.1,
      (check_box.text, i / 2, i % 2) :: r.2)

/-- The function `DebugAnalysisSettingsWidget::setupSymbolSourceGrid`. -/
def setupSymbolSourceGrid (place : KeyPlacement) (h : Host) (w : DebugAnalysisSettingsWidget) :
    DebugAnalysisSettingsWidget :=
  let proceed :=
    match w.m_dialog with
    | none => true
    | some d => d.serial == h.GetCurrentGameSerial
  if proceed then
    let existing_symbol_source_count : Int :=
      match w.m_dialog with
      | some d => d.getEffectiveIntValue h "Debugger/Analysis/SymbolSources" "Count" 0
      | none => h.GetIntSettingValue "Debugger/Analysis/SymbolSources" "Count" 0
    let m := (List.range existing_symbol_source_count.toNat).foldl
      (addExistingSymbolSource place h w.m_dialog) w.m_symbol_sources
    let m := h.symbol_sources.foldl (addDatabaseSymbolSource place h) m
    if m.isEmpty then
      { w with
        m_symbol_sources := m
        m_ui := { w.m_ui with
          symbolSourceErrorMessage := "<i>No symbol sources in database.</i>"
          symbolSourceScrollAreaHidden := true } }
    else
      let r := createCheckBoxes m 0
      { w with
        m_symbol_sources := r.1
        m_ui := { w.m_ui with
          symbolSourceGrid := w.m_ui.symbolSourceGrid ++ r.2
          symbolSourceErrorMessageHidden := true } }
  else
    { w with
      m_ui := { w.m_ui with
        symbolSourceErrorMessage := "<i>Start this game to modify the symbol sources list.</i>"
        symbolSourceScrollAreaHidden := true } }

/-! ## `saveSymbolSources` and `symbolSourceCheckStateChanged` -/

/-- The loop `for (int i = 0; i < old_count; i++) sif->RemoveSection(section i)`. -/
def removeOldSections (sif : SettingsInterface) (old_count : Int) : SettingsInterface :=
  (List.range old_count.toNat).foldl (fun s i => s.RemoveSection (symbolSourceSection i)) sif

/-- The loop that counts the entries to save. -/
def countSymbolSourcesToSave (m : SymbolSourceMap) : Nat :=
  m.foldl (fun n e => if e.2.modified_by_user then n + 1 else n) 0

/-- The loop that writes the entries to save, from index `i` on. `none` is the
dereference of a null `check_box`. -/
def writeSymbolSources : SettingsInterface → Nat → SymbolSourceMap → Option SettingsInterface
  | sif, _, [] => some sif
  | sif, i, (name, temp) :: rest =>
    if !temp.modified_by_user then writeSymbolSources sif i rest
    else
      match temp.check_box with
      | none => none
      | some check_box =>
        let sec := symbolSourceSection i
        let sif := sif.SetStringValue sec "Name" name
        let sif := sif.SetBoolValue sec "ClearDuringAnalysis" check_box.checked
        writeSymbolSources sif (i + 1) rest

/-- What `saveSymbolSources` does to the storage `sif` it found. -/
def saveSymbolSourcesTo (sif : SettingsInterface) (m : SymbolSourceMap) :
    Option SettingsInterface :=
  let old_count := sif.GetIntValue "Debugger/Analysis/SymbolSources" "Count" 0
  let sif := removeOldSections sif old_count
  let sif := sif.RemoveSection "Debugger/Analysis/SymbolSources"
  let symbol_sources_to_save := countSymbolSourcesToSave m
  if symbol_sources_to_save = 0 then some sif
  else
    let sif := sif.SetIntValue "Debugger/Analysis/SymbolSources" "Count" symbol_sources_to_save
    writeSymbolSources sif 0 m

/-- The function `DebugAnalysisSettingsWidget::saveSymbolSources`. -/
def saveSymbolSources (w : DebugAnalysisSettingsWidget) : Option DebugAnalysisSettingsWidget :=
  match w.m_dialog with
  | none => some w
  | some d =>
    match d.sif with
    | none => some w
    | some sif =>
      (saveSymbolSourcesTo sif w.m_symbol_sources).map
        (fun s => { w with m_dialog := some { d with sif := some s } })

/-- The slot `DebugAnalysisSettingsWidget::symbolSourceCheckStateChanged`; `sender` is
`qobject_cast<QCheckBox*>(sender())`, `none` when the cast gives null. -/
def symbolSourceCheckStateChanged (w : DebugAnalysisSettingsWidget) (sender : Option QCheckBox) :
    Option DebugAnalysisSettingsWidget :=
  match sender with
  | none => some w
  | some check_box =>
    match mapFind w.m_symbol_sources check_box.text with
    | none => some w
    | some _ =>
      saveSymbolSources { w with
        m_symbol_sources := mapUpdate w.m_symbol_sources check_box.text
          (fun temp => { temp with modified_by_user := true }) }

/-- Qt's part of a toggle: the state of the box labelled `name` becomes `value`
before `checkStateChanged` is emitted. The entries point to their boxes, so the
entry holding that box sees the new state. -/
def setCheckState (m : SymbolSourceMap) (name : String) (value : Bool) : SymbolSourceMap :=
  m.map (fun e =>
    match e.2.check_box with
    | some check_box =>
      if check_box.text == name then (e.1, { e.2 with check_box := some ⟨name, value⟩ }) else e
    | none => e)

/-- The operation `Toggle(name, value)`: the box labelled `name` changes to `value` and emits
`checkStateChanged`, which runs the slot with that box as sender. -/
def toggle (w : DebugAnalysisSettingsWidget) (name : String) (value : Bool) :
    Option DebugAnalysisSettingsWidget :=
  symbolSourceCheckStateChanged
    { w with m_symbol_sources := setCheckState w.m_symbol_sources name value }
    (some ⟨name, value⟩)

/-! ## `functionScanRangeChanged` -/

/-- The function `DebugAnalysisSettingsWidget::functionScanRangeChanged`. `toUInt text base`
is Qt's `QString::toUInt(&ok, base)`, a parameter: the value when `ok`, else `none`. -/
def functionScanRangeChanged (toUInt : String → Nat → Option Nat)
    (w : DebugAnalysisSettingsWidget) : DebugAnalysisSettingsWidget :=
  match w.m_dialog with
  | none => w
  | some d =>
    match d.sif with
    | none => w
    | some sif =>
      let start_address := w.m_ui.addressRangeStart
      let end_address := w.m_ui.addressRangeEnd
      let sif :=
        if (toUInt start_address 16).isSome then
          sif.SetStringValue "Debugger/Analysis" "FunctionScanStartAddress" start_address
        else sif
      let sif :=
        if (toUInt end_address 16).isSome then
          sif.SetStringValue "Debugger/Analysis" "FunctionScanEndAddress" end_address
        else sif
      { w with m_dialog := some { d with sif := some sif } }

/-! ## Reading the stored array back -/

/-- The persisted list `P` that the first loop of `setupSymbolSourceGrid` reads from a
storage: `Count` pairs `(Name, ClearDuringAnalysis)`, by index. -/
def persistedSymbolSources (sif : SettingsInterface) : List (String × Bool) :=
  (List.range (sif.GetIntValue "Debugger/Analysis/SymbolSources" "Count" 0).toNat).map
    (fun i => (sif.GetStringValue (symbolSourceSection i) "Name" "",
      sif.GetBoolValue (symbolSourceSection i) "ClearDuringAnalysis" false))

/-- The storage whose reads `setupSymbolSourceGrid` sees from a widget. -/
def effectiveSettings (h : Host) (m_dialog : Option SettingsWindow) : SettingsInterface :=
  match m_dialog with
  | some d => (d.sif).getD h.settings
  | none => h.settings

/-- The sequence `Persist()` of the spec: the user-modified entries in iteration order, each
with the state of its check box. -/
def symbolSourcesToSave (m : SymbolSourceMap) : List (String × Bool) :=
  (m.filter (fun e => e.2.modified_by_user)).filterMap
    (fun e => e.2.check_box.map (fun c => (e.1, c.checked)))

/-- A reconciled set as the panel holds it once the grid is built: names are unique and each
entry points to the check box labelled with its name. -/
def Reconciled (m : SymbolSourceMap) : Prop :=
  (mapKeys m).Nodup ∧ ∀ e ∈ m, e.2.check_box.map QCheckBox.text = some e.1

instance (m : SymbolSourceMap) : Decidable (Reconciled m) := by
  unfold Reconciled; infer_instance

/-! ## Definitions used to state and prove the properties -/

/-- The number a string of decimal digits denotes. -/
def decimalValue (l : List Char) : Nat :=
  l.foldl (fun acc c => acc * 10 + (c.toNat - 48)) 0

/-- The two flags of an entry: the value it was given and whether the user chose it. -/
def entryFlags (t : SymbolSourceTemp) : Bool × Bool := (t.previous_value, t.modified_by_user)

/-- The first loop of `setupSymbolSourceGrid` run on the list of pairs it reads. -/
def assignPersisted (place : KeyPlacement) (m : SymbolSourceMap) (P : List (String × Bool)) :
    SymbolSourceMap :=
  P.foldl (fun m p => mapAssign place m p.1 p.2 true) m

/-- The container after the loop that creates the check boxes. -/
def withCheckBoxes (m : SymbolSourceMap) : SymbolSourceMap :=
  m.map (fun e => (e.1, { e.2 with check_box := some ⟨e.1, e.2.previous_value⟩ }))

/-- The loop over the database's symbol sources. -/
def addDatabaseSources (place : KeyPlacement) (h : Host) (m : SymbolSourceMap)
    (L : List String) : SymbolSourceMap :=
  L.foldl (addDatabaseSymbolSource place h) m

/-- Writing the pairs of `l` to the indexed sections `i`, `i + 1`, ... -/
def writePairs : SettingsInterface → Nat → List (String × Bool) → SettingsInterface
  | sif, _, [] => sif
  | sif, i, p :: rest =>
    writePairs (((sif.SetStringValue (symbolSourceSection i) "Name" p.1).SetBoolValue
      (symbolSourceSection i) "ClearDuringAnalysis" p.2)) (i + 1) rest

/-- The storage `saveSymbolSources` leaves when every entry to save has its check box. -/
def savedSettings (sif : SettingsInterface) (m : SymbolSourceMap) : SettingsInterface :=
  let cleared := (removeOldSections sif
    (sif.GetIntValue "Debugger/Analysis/SymbolSources" "Count" 0)).RemoveSection
      "Debugger/Analysis/SymbolSources"
  if countSymbolSourcesToSave m = 0 then cleared
  else
    writePairs (cleared.SetIntValue "Debugger/Analysis/SymbolSources" "Count"
      (countSymbolSourcesToSave m)) 0 (symbolSourcesToSave m)

/-- The widget as its constructors hold it when they call `setupSymbolSourceGrid`: the form
just set up, no symbol source yet. -/
def newWidget (m_dialog : Option SettingsWindow) : DebugAnalysisSettingsWidget :=
  ⟨m_dialog, [], ⟨"", false, false, [], "", ""⟩⟩

/-- The container `setupSymbolSourceGrid` builds from the persisted list `P` and the host's
database sources, starting from none. -/
def reconcile (place : KeyPlacement) (h : Host) (P : List (String × Bool)) : SymbolSourceMap :=
  withCheckBoxes (addDatabaseSources place h (assignPersisted place [] P) h.symbol_sources)

/-- The panel shows the message for an empty database in place of the grid. -/
def showsNoSymbolSources (w : DebugAnalysisSettingsWidget) : Prop :=
  w.m_ui.symbolSourceErrorMessage = "<i>No symbol sources in database.</i>" ∧
    w.m_ui.symbolSourceErrorMessageHidden = false ∧ w.m_ui.symbolSourceScrollAreaHidden = true

instance (w : DebugAnalysisSettingsWidget) : Decidable (showsNoSymbolSources w) := by
  unfold showsNoSymbolSources; infer_instance

/-- The settings storage the panel is bound to, if any. -/
def boundSettings (w : DebugAnalysisSettingsWidget) : Option SettingsInterface :=
  w.m_dialog.bind (fun d => d.sif)

/-- The container a toggle of `name` to `value` leaves. -/
def toggled (m : SymbolSourceMap) (name : String) (value : Bool) : SymbolSourceMap :=
  mapUpdate (mapUpdate m name (fun t => { t with check_box := some ⟨name, value⟩ })) name
    (fun temp => { temp with modified_by_user := true })

/-- The list `l` without the repeats of a name: each name stays where it first occurs. -/
def firstOccurrences : List String → List String
  | [] => []
  | x :: xs => x :: (firstOccurrences xs).filter (fun y => y != x)

/-- The storage `functionScanRangeChanged` leaves from `sif`. -/
def storedScanRange (toUInt : String → Nat → Option Nat) (ui : Ui) (sif : SettingsInterface) :
    SettingsInterface :=
  let sif :=
    if (toUInt ui.addressRangeStart 16).isSome then
      sif.SetStringValue "Debugger/Analysis" "FunctionScanStartAddress" ui.addressRangeStart
    else sif
  if (toUInt ui.addressRangeEnd 16).isSome then
    sif.SetStringValue "Debugger/Analysis" "FunctionScanEndAddress" ui.addressRangeEnd
  else sif

/-! ## Scenarios -/

/-- A storage holding the persisted list `P`, written the way `saveSymbolSources` writes. -/
def storageOf (P : List (String × Bool)) : SettingsInterface :=
  if P.length = 0 then ⟨[]⟩
  else writePairs ((⟨[]⟩ : SettingsInterface).SetIntValue "Debugger/Analysis/SymbolSources"
    "Count" P.length) 0 P

/-- The host of the scenarios: game `SLUS-20312` runs, its database holds `sources`, and no
source is cleared by default. -/
def scenarioHost (sources : List String) : Host :=
  ⟨⟨[]⟩, "SLUS-20312", sources, fun _ => false⟩

/-- The per-game dialog of the running game, bound to `sif`. -/
def scenarioDialog (sif : SettingsInterface) : Option SettingsWindow :=
  some ⟨some sif, "SLUS-20312"⟩

/-- The panel of the spec's scenario once its grid is built: `ModuleA` persisted as cleared,
`ModuleB` known to the database only. -/
def scenarioWidget : DebugAnalysisSettingsWidget :=
  ⟨scenarioDialog (storageOf [("ModuleA", true)]),
    [("ModuleA", ⟨some ⟨"ModuleA", true⟩, true, true⟩),
      ("ModuleB", ⟨some ⟨"ModuleB", false⟩, false, false⟩)],
    ⟨"", true, false, [("ModuleA", 0, 0), ("ModuleB", 0, 1)], "", ""⟩⟩

/-- A panel none of whose sources is user-modified, bound to a storage that holds two
persisted pairs. -/
def unchosenWidget : DebugAnalysisSettingsWidget :=
  ⟨scenarioDialog (storageOf [("ModuleA", true), ("ModuleB", false)]),
    [("ModuleA", ⟨some ⟨"ModuleA", true⟩, true, false⟩),
      ("ModuleB", ⟨some ⟨"ModuleB", false⟩, false, false⟩)],
    ⟨"", true, false, [("ModuleA", 0, 0), ("ModuleB", 0, 1)], "", ""⟩⟩

/-- A stand-in for `QString::toUInt` in the scenarios: a non-empty string of digits of the
base, below `2^32`. -/
def digitsToUInt (text : String) (base : Nat) : Option Nat :=
  if text.data = [] then none
  else
    (text.data.foldl
      (fun acc c =>
        acc.bind (fun a =>
          let dgt :=
            if '0' ≤ c ∧ c ≤ '9' then c.toNat - 48
            else if 'a' ≤ c ∧ c ≤ 'f' then c.toNat - 87
            else if 'A' ≤ c ∧ c ≤ 'F' then c.toNat - 55
            else base
          if dgt < base ∧ a * base + dgt < 2 ^ 32 then some (a * base + dgt) else none))
      (some 0))

/-- A per-game panel whose range fields hold a valid start and an invalid end. -/
def rangeWidget : DebugAnalysisSettingsWidget :=
  ⟨scenarioDialog
      ((⟨[]⟩ : SettingsInterface).SetStringValue "Debugger/Analysis" "FunctionScanEndAddress"
        "2000000"),
    [], ⟨"", false, false, [], "1f0000", "0xZZ"⟩⟩

/-! ## Lemmas: the storage -/

namespace SettingsInterface

theorem lookup_store_same (sif : SettingsInterface) (sec key : String) (v : SettingValue) :
    (sif.store sec key v).lookup sec key = some v := by
  have h : List.find? (fun e : Setting => e.sec == sec && e.key == key)
      (sif.entries.filter (fun e => !(e.sec == sec && e.key == key))) = none := by
    rw [List.find?_eq_none]
    intro x hx
    have := (List.mem_filter.1 hx).2
    simp only [Bool.not_eq_true', Bool.and_eq_false_iff, beq_eq_false_iff_ne, ne_eq] at this
    simp only [Bool.and_eq_true, beq_iff_eq, not_and]
    tauto
  simp only [lookup, store, List.find?_append, h]
  simp

theorem lookup_store_other (sif : SettingsInterface) (sec key sec1 key1 : String)
    (v : SettingValue) (h : ¬ (sec1 = sec ∧ key1 = key)) :
    (sif.store sec key v).lookup sec1 key1 = sif.lookup sec1 key1 := by
  have hfilter : List.find? (fun e : Setting => e.sec == sec1 && e.key == key1)
      (sif.entries.filter (fun e => !(e.sec == sec && e.key == key)))
      = List.find? (fun e : Setting => e.sec == sec1 && e.key == key1) sif.entries := by
    rw [List.find?_filter]
    congr 1
    funext e
    by_cases h1 : e.sec = sec1 <;> by_cases h2 : e.key = key1 <;> simp [h1, h2]
    tauto
  have hlast : ((⟨sec, key, v⟩ : Setting).sec == sec1 && (⟨sec, key, v⟩ : Setting).key == key1)
      = false := by
    by_cases h1 : sec = sec1 <;> by_cases h2 : key = key1 <;> simp [h1, h2]
    exact h ⟨h1.symm, h2.symm⟩
  simp only [lookup, store, List.find?_append, hfilter, List.find?_cons, hlast, List.find?_nil,
    Option.or_none]

theorem lookup_RemoveSection_same (sif : SettingsInterface) (sec key : String) :
    (sif.RemoveSection sec).lookup sec key = none := by
  have h : List.find? (fun e : Setting => e.sec == sec && e.key == key)
      (sif.entries.filter (fun e => !(e.sec == sec))) = none := by
    rw [List.find?_eq_none]
    intro x hx
    have := (List.mem_filter.1 hx).2
    simp at this
    simp [this]
  simp [lookup, RemoveSection, h]

theorem lookup_RemoveSection_other (sif : SettingsInterface) (sec sec1 key1 : String)
    (h : sec1 ≠ sec) : (sif.RemoveSection sec).lookup sec1 key1 = sif.lookup sec1 key1 := by
  have hfilter : List.find? (fun e : Setting => e.sec == sec1 && e.key == key1)
      (sif.entries.filter (fun e => !(e.sec == sec)))
      = List.find? (fun e : Setting => e.sec == sec1 && e.key == key1) sif.entries := by
    rw [List.find?_filter]
    congr 1
    funext e
    by_cases h1 : e.sec = sec1 <;> by_cases h2 : e.key = key1 <;> simp [h1, h2]
    exact h
  simp only [lookup, RemoveSection, hfilter]

theorem hasSection_store (sif : SettingsInterface) (sec key sec1 : String) (v : SettingValue) :
    (sif.store sec key v).hasSection sec1 = (decide (sec1 = sec) || sif.hasSection sec1) := by
  by_cases h : sec1 = sec
  · subst h
    simp [hasSection, store]
  · have h2 : ¬ sec = sec1 := fun e => h e.symm
    have h3 : (sec == sec1) = false := by simp [h2]
    simp only [hasSection, store, List.any_append, List.any_filter, List.any_cons, List.any_nil,
      h, h3, decide_False, Bool.false_or, Bool.or_false]
    congr 1
    funext e
    by_cases h1 : e.sec = sec1 <;> simp [h1, h]

theorem hasSection_RemoveSection (sif : SettingsInterface) (sec sec1 : String) :
    (sif.RemoveSection sec).hasSection sec1 = (!decide (sec1 = sec) && sif.hasSection sec1) := by
  by_cases h : sec1 = sec
  · subst h
    simp [hasSection, RemoveSection, List.any_filter]
  · simp only [hasSection, RemoveSection, List.any_filter, h, decide_False, Bool.not_false,
      Bool.true_and]
    congr 1
    funext e
    by_cases h1 : e.sec = sec1 <;> simp [h1, h]

end SettingsInterface

/-! ## Lemmas: section names -/

theorem decimalValue_snoc (l : List Char) (c : Char) :
    decimalValue (l ++ [c]) = decimalValue l * 10 + (c.toNat - 48) := by
  simp [decimalValue, List.foldl_append]

theorem digitChar_value (d : Nat) (h : d < 10) : (Nat.digitChar d).toNat - 48 = d := by
  interval_cases d <;> rfl

theorem toDigitsCore_acc (fuel n : Nat) (ds : List Char) :
    Nat.toDigitsCore 10 fuel n ds = Nat.toDigitsCore 10 fuel n [] ++ ds := by
  induction fuel generalizing n ds with
  | zero => simp [Nat.toDigitsCore]
  | succ f ih =>
    simp only [Nat.toDigitsCore]
    split
    · simp
    · rw [ih (n / 10) (Nat.digitChar (n % 10) :: ds), ih (n / 10) [Nat.digitChar (n % 10)]]
      simp

theorem decimalValue_toDigitsCore (fuel n : Nat) (h : n < fuel) :
    decimalValue (Nat.toDigitsCore 10 fuel n []) = n := by
  induction fuel generalizing n with
  | zero => omega
  | succ f ih =>
    simp only [Nat.toDigitsCore]
    split
    · rename_i h0
      have hn : n % 10 = n := by omega
      have hlt : n < 10 := by omega
      simp [decimalValue, hn, digitChar_value n hlt]
    · rename_i h0
      rw [toDigitsCore_acc, decimalValue_snoc, ih (n / 10) (by omega),
        digitChar_value (n % 10) (Nat.mod_lt _ (by decide))]
      omega

theorem decimalValue_toString (n : Nat) : decimalValue (toString n).data = n := by
  show decimalValue (Nat.repr n).data = n
  simp only [Nat.repr, Nat.toDigits, List.asString]
  exact decimalValue_toDigitsCore (n + 1) n (Nat.lt_succ_self n)

theorem symbolSourceSection_injective (i j : Nat)
    (h : symbolSourceSection i = symbolSourceSection j) : i = j := by
  have hd := congrArg String.data h
  simp only [symbolSourceSection, String.data_append] at hd
  have := List.append_cancel_left hd
  rw [← decimalValue_toString i, ← decimalValue_toString j, this]

theorem symbolSourceSection_ne_parent (i : Nat) :
    symbolSourceSection i ≠ "Debugger/Analysis/SymbolSources" := by
  intro h
  have hd := congrArg (fun s : String => s.data.length) h
  simp only [symbolSourceSection, String.data_append, List.length_append] at hd
  have h31 : ("Debugger/Analysis/SymbolSources" : String).data.length = 31 := by decide
  have h32 : ("Debugger/Analysis/SymbolSources/" : String).data.length = 32 := by decide
  rw [h31, h32] at hd
  omega

/-! ## Lemmas: the container -/

theorem mapFind_nil (n : String) : mapFind [] n = none := rfl

theorem mapFind_cons (e : String × SymbolSourceTemp) (rest : SymbolSourceMap) (n : String) :
    mapFind (e :: rest) n = if e.1 = n then some e.2 else mapFind rest n := by
  by_cases h : e.1 = n
  · simp [mapFind, List.find?_cons, h]
  · have hb : (e.1 == n) = false := by simp [h]
    simp [mapFind, List.find?_cons, h, hb]

theorem mapFind_append (a b : SymbolSourceMap) (n : String) :
    mapFind (a ++ b) n = (mapFind a n).or (mapFind b n) := by
  induction a with
  | nil => simp [mapFind_nil]
  | cons e rest ih =>
    rw [List.cons_append, mapFind_cons, mapFind_cons, ih]
    by_cases h : e.1 = n <;> simp [h]

theorem mapUpdate_cons (e : String × SymbolSourceTemp) (rest : SymbolSourceMap) (n : String)
    (f : SymbolSourceTemp → SymbolSourceTemp) :
    mapUpdate (e :: rest) n f =
      (if e.1 = n then (e.1, f e.2) else e) :: mapUpdate rest n f := by
  simp [mapUpdate]

theorem mapFind_eq_none_iff (m : SymbolSourceMap) (n : String) :
    mapFind m n = none ↔ n ∉ mapKeys m := by
  induction m with
  | nil => simp [mapFind_nil, mapKeys]
  | cons e rest ih =>
    rw [mapFind_cons]
    by_cases h : e.1 = n
    · simp [h, mapKeys]
    · have h2 : ¬ n = e.1 := fun x => h x.symm
      simp only [h, if_false, ih, mapKeys, List.map_cons, List.mem_cons, h2, false_or]

theorem mapFind_isSome_iff (m : SymbolSourceMap) (n : String) :
    (mapFind m n).isSome = true ↔ n ∈ mapKeys m := by
  rw [← not_iff_not, ← mapFind_eq_none_iff]
  cases mapFind m n <;> simp

theorem mem_of_mapFind (m : SymbolSourceMap) (n : String) (t : SymbolSourceTemp)
    (h : mapFind m n = some t) : (n, t) ∈ m := by
  simp only [mapFind, Option.map_eq_some'] at h
  obtain ⟨e, he, rfl⟩ := h
  have h1 := List.find?_some he
  have h2 := List.mem_of_find?_eq_some he
  simp only [beq_iff_eq] at h1
  subst h1
  exact h2

theorem mapFind_of_mem (m : SymbolSourceMap) (n : String) (t : SymbolSourceTemp)
    (hnd : (mapKeys m).Nodup) (h : (n, t) ∈ m) : mapFind m n = some t := by
  induction m with
  | nil => simp at h
  | cons e rest ih =>
    simp only [mapKeys, List.map_cons, List.nodup_cons, List.mem_map, not_exists, not_and] at hnd
    rcases List.mem_cons.1 h with h1 | h1
    · subst h1
      simp [mapFind_cons]
    · have hne : ¬ e.1 = n := fun he => hnd.1 (n, t) h1 he.symm
      rw [mapFind_cons, if_neg hne]
      exact ih hnd.2 h1

theorem mapKeys_mapUpdate (m : SymbolSourceMap) (n : String)
    (f : SymbolSourceTemp → SymbolSourceTemp) : mapKeys (mapUpdate m n f) = mapKeys m := by
  simp only [mapKeys, mapUpdate, List.map_map]
  apply List.map_congr_left
  intro e _
  by_cases h : e.1 = n <;> simp [h]

theorem mapFind_mapUpdate_same (m : SymbolSourceMap) (n : String)
    (f : SymbolSourceTemp → SymbolSourceTemp) :
    mapFind (mapUpdate m n f) n = (mapFind m n).map f := by
  induction m with
  | nil => simp [mapFind, mapUpdate]
  | cons e rest ih =>
    rw [mapUpdate_cons, mapFind_cons, mapFind_cons]
    by_cases h : e.1 = n
    · simp [h]
    · simp [h, ih]

theorem mapFind_mapUpdate_other (m : SymbolSourceMap) (n x : String)
    (f : SymbolSourceTemp → SymbolSourceTemp) (hx : x ≠ n) :
    mapFind (mapUpdate m n f) x = mapFind m x := by
  induction m with
  | nil => simp [mapFind, mapUpdate]
  | cons e rest ih =>
    rw [mapUpdate_cons, mapFind_cons, mapFind_cons]
    by_cases h : e.1 = n
    · have hne : ¬ n = x := fun e => hx e.symm
      simp [h, hne, ih]
    · simp [h, ih]

theorem mapKeys_mapSubscript (place : KeyPlacement) (m : SymbolSourceMap) (n : String) :
    mapKeys (mapSubscript place m n) =
      if n ∈ mapKeys m then mapKeys m
      else (mapKeys m).take (place n (mapKeys m)) ++ n :: (mapKeys m).drop (place n (mapKeys m)) := by
  unfold mapSubscript
  cases h : mapFind m n with
  | some t =>
    have : n ∈ mapKeys m := (mapFind_isSome_iff m n).1 (by simp [h])
    simp [this]
  | none =>
    have : n ∉ mapKeys m := (mapFind_eq_none_iff m n).1 h
    rw [if_neg this]
    simp [mapKeys, List.map_take, List.map_drop]

theorem mem_mapKeys_mapSubscript (place : KeyPlacement) (m : SymbolSourceMap) (n x : String) :
    x ∈ mapKeys (mapSubscript place m n) ↔ x = n ∨ x ∈ mapKeys m := by
  rw [mapKeys_mapSubscript]
  split
  · rename_i h
    constructor
    · exact Or.inr
    · rintro (rfl | h1)
      · exact h
      · exact h1
  · have hperm : ((mapKeys m).take (place n (mapKeys m)) ++
        n :: (mapKeys m).drop (place n (mapKeys m))).Perm
        (n :: ((mapKeys m).take (place n (mapKeys m)) ++
          (mapKeys m).drop (place n (mapKeys m)))) := List.perm_middle
    rw [hperm.mem_iff, List.take_append_drop]
    simp

theorem nodup_mapKeys_mapSubscript (place : KeyPlacement) (m : SymbolSourceMap) (n : String)
    (hnd : (mapKeys m).Nodup) : (mapKeys (mapSubscript place m n)).Nodup := by
  rw [mapKeys_mapSubscript]
  split
  · exact hnd
  · rename_i h
    rw [List.nodup_middle, List.take_append_drop]
    exact List.nodup_cons.2 ⟨h, hnd⟩

theorem mapFind_mapSubscript_other (place : KeyPlacement) (m : SymbolSourceMap) (n x : String)
    (hx : x ≠ n) : mapFind (mapSubscript place m n) x = mapFind m x := by
  unfold mapSubscript
  cases h : mapFind m n with
  | some t => rfl
  | none =>
    have hne : ¬ n = x := fun e => hx e.symm
    show mapFind (m.take (place n (mapKeys m)) ++ (n, ⟨none, false, false⟩) ::
      m.drop (place n (mapKeys m))) x = mapFind m x
    rw [mapFind_append, mapFind_cons, if_neg hne, ← mapFind_append, List.take_append_drop]

theorem mapFind_mapSubscript_same (place : KeyPlacement) (m : SymbolSourceMap) (n : String) :
    mapFind (mapSubscript place m n) n = some ((mapFind m n).getD ⟨none, false, false⟩) := by
  unfold mapSubscript
  cases h : mapFind m n with
  | some t => simp [h]
  | none =>
    have hn : n ∉ mapKeys m := (mapFind_eq_none_iff m n).1 h
    have htake : mapFind (m.take (place n (mapKeys m))) n = none := by
      rw [mapFind_eq_none_iff]
      intro hmem
      apply hn
      obtain ⟨e, he, hen⟩ := List.mem_map.1 hmem
      exact List.mem_map.2 ⟨e, List.mem_of_mem_take he, hen⟩
    show mapFind (m.take (place n (mapKeys m)) ++ (n, ⟨none, false, false⟩) ::
      m.drop (place n (mapKeys m))) n = _
    rw [mapFind_append, htake, mapFind_cons]
    simp

theorem mem_mapKeys_mapAssign (place : KeyPlacement) (m : SymbolSourceMap) (n x : String)
    (v u : Bool) : x ∈ mapKeys (mapAssign place m n v u) ↔ x = n ∨ x ∈ mapKeys m := by
  simp only [mapAssign, mapKeys_mapUpdate, mem_mapKeys_mapSubscript]

theorem nodup_mapKeys_mapAssign (place : KeyPlacement) (m : SymbolSourceMap) (n : String)
    (v u : Bool) (hnd : (mapKeys m).Nodup) : (mapKeys (mapAssign place m n v u)).Nodup := by
  simp only [mapAssign, mapKeys_mapUpdate]
  exact nodup_mapKeys_mapSubscript place m n hnd

theorem mapFind_mapAssign_other (place : KeyPlacement) (m : SymbolSourceMap) (n x : String)
    (v u : Bool) (hx : x ≠ n) : mapFind (mapAssign place m n v u) x = mapFind m x := by
  simp only [mapAssign, mapFind_mapUpdate_other _ _ _ _ hx, mapFind_mapSubscript_other _ _ _ _ hx]

theorem mapFind_mapAssign_same (place : KeyPlacement) (m : SymbolSourceMap) (n : String)
    (v u : Bool) : (mapFind (mapAssign place m n v u) n).map entryFlags = some (v, u) := by
  simp only [mapAssign, mapFind_mapUpdate_same, mapFind_mapSubscript_same, Option.map_some',
    entryFlags]

theorem mapKeys_mapAssign_insertionOrder (m : SymbolSourceMap) (n : String) (v u : Bool) :
    mapKeys (mapAssign insertionOrder m n v u) =
      if n ∈ mapKeys m then mapKeys m else mapKeys m ++ [n] := by
  simp only [mapAssign, mapKeys_mapUpdate, mapKeys_mapSubscript, insertionOrder, List.take_length,
    List.drop_length]

/-! ## Lemmas: the loops of `setupSymbolSourceGrid` -/

theorem mem_mapKeys_assignPersisted (place : KeyPlacement) (P : List (String × Bool))
    (m : SymbolSourceMap) (x : String) :
    x ∈ mapKeys (assignPersisted place m P) ↔ x ∈ P.map Prod.fst ∨ x ∈ mapKeys m := by
  induction P generalizing m with
  | nil => simp [assignPersisted]
  | cons p rest ih =>
    have := ih (mapAssign place m p.1 p.2 true)
    simp only [assignPersisted, List.foldl_cons] at this ⊢
    rw [this, mem_mapKeys_mapAssign]
    simp only [List.map_cons, List.mem_cons]
    tauto

theorem nodup_mapKeys_assignPersisted (place : KeyPlacement) (P : List (String × Bool))
    (m : SymbolSourceMap) (hnd : (mapKeys m).Nodup) :
    (mapKeys (assignPersisted place m P)).Nodup := by
  induction P generalizing m with
  | nil => simpa [assignPersisted] using hnd
  | cons p rest ih =>
    exact ih (mapAssign place m p.1 p.2 true) (nodup_mapKeys_mapAssign place m p.1 p.2 true hnd)

theorem mapFind_assignPersisted_of_not_mem (place : KeyPlacement) (P : List (String × Bool))
    (m : SymbolSourceMap) (x : String) (hx : x ∉ P.map Prod.fst) :
    mapFind (assignPersisted place m P) x = mapFind m x := by
  induction P generalizing m with
  | nil => rfl
  | cons p rest ih =>
    simp only [List.map_cons, List.mem_cons, not_or] at hx
    have := ih (mapAssign place m p.1 p.2 true) hx.2
    simp only [assignPersisted, List.foldl_cons] at this ⊢
    rw [this, mapFind_mapAssign_other _ _ _ _ _ _ hx.1]

theorem mapFind_assignPersisted_last (place : KeyPlacement) (P1 P2 : List (String × Bool))
    (m : SymbolSourceMap) (n : String) (v : Bool) (hn : n ∉ P2.map Prod.fst) :
    (mapFind (assignPersisted place m (P1 ++ (n, v) :: P2)) n).map entryFlags = some (v, true) := by
  have hsplit : assignPersisted place m (P1 ++ (n, v) :: P2) =
      assignPersisted place (mapAssign place (assignPersisted place m P1) n v true) P2 := by
    simp [assignPersisted, List.foldl_append]
  rw [hsplit, mapFind_assignPersisted_of_not_mem _ _ _ _ hn, mapFind_mapAssign_same]

theorem mem_mapKeys_addDatabaseSymbolSource (place : KeyPlacement) (h : Host)
    (m : SymbolSourceMap) (n x : String) :
    x ∈ mapKeys (addDatabaseSymbolSource place h m n) ↔
      x ∈ mapKeys m ∨ (x = n ∧ x ≠ "Built-In") := by
  unfold addDatabaseSymbolSource
  split
  · rename_i hc
    simp only [Bool.and_eq_true, Option.isNone_iff_eq_none, bne_iff_ne, ne_eq] at hc
    rw [mem_mapKeys_mapAssign]
    constructor
    · rintro (rfl | h1)
      · exact Or.inr ⟨rfl, hc.2⟩
      · exact Or.inl h1
    · rintro (h1 | ⟨rfl, _⟩)
      · exact Or.inr h1
      · exact Or.inl rfl
  · rename_i hc
    simp only [Bool.and_eq_true, Option.isNone_iff_eq_none, bne_iff_ne, ne_eq, not_and,
      Decidable.not_not] at hc
    constructor
    · exact Or.inl
    · rintro (h1 | ⟨rfl, h2⟩)
      · exact h1
      · by_contra hmem
        exact h2 (hc ((mapFind_eq_none_iff m x).2 hmem))

theorem nodup_mapKeys_addDatabaseSymbolSource (place : KeyPlacement) (h : Host)
    (m : SymbolSourceMap) (n : String) (hnd : (mapKeys m).Nodup) :
    (mapKeys (addDatabaseSymbolSource place h m n)).Nodup := by
  unfold addDatabaseSymbolSource
  split
  · exact nodup_mapKeys_mapAssign place m n _ _ hnd
  · exact hnd

theorem mapFind_addDatabaseSymbolSource_of_mem (place : KeyPlacement) (h : Host)
    (m : SymbolSourceMap) (n x : String) (hx : x ∈ mapKeys m) :
    mapFind (addDatabaseSymbolSource place h m n) x = mapFind m x := by
  unfold addDatabaseSymbolSource
  split
  · rename_i hc
    simp only [Bool.and_eq_true, Option.isNone_iff_eq_none, bne_iff_ne, ne_eq] at hc
    have hne : x ≠ n := by
      rintro rfl
      exact ((mapFind_eq_none_iff m x).1 hc.1) hx
    exact mapFind_mapAssign_other _ _ _ _ _ _ hne
  · rfl

theorem mem_mapKeys_addDatabaseSources (place : KeyPlacement) (h : Host) (L : List String)
    (m : SymbolSourceMap) (x : String) :
    x ∈ mapKeys (addDatabaseSources place h m L) ↔
      x ∈ mapKeys m ∨ (x ∈ L ∧ x ≠ "Built-In") := by
  induction L generalizing m with
  | nil => simp [addDatabaseSources]
  | cons n rest ih =>
    have := ih (addDatabaseSymbolSource place h m n)
    simp only [addDatabaseSources, List.foldl_cons] at this ⊢
    rw [this, mem_mapKeys_addDatabaseSymbolSource]
    simp only [List.mem_cons]
    tauto

theorem nodup_mapKeys_addDatabaseSources (place : KeyPlacement) (h : Host) (L : List String)
    (m : SymbolSourceMap) (hnd : (mapKeys m).Nodup) :
    (mapKeys (addDatabaseSources place h m L)).Nodup := by
  induction L generalizing m with
  | nil => simpa [addDatabaseSources] using hnd
  | cons n rest ih =>
    exact ih (addDatabaseSymbolSource place h m n)
      (nodup_mapKeys_addDatabaseSymbolSource place h m n hnd)

theorem mapFind_addDatabaseSources_of_mem (place : KeyPlacement) (h : Host) (L : List String)
    (m : SymbolSourceMap) (x : String) (hx : x ∈ mapKeys m) :
    mapFind (addDatabaseSources place h m L) x = mapFind m x := by
  induction L generalizing m with
  | nil => rfl
  | cons n rest ih =>
    have hx2 : x ∈ mapKeys (addDatabaseSymbolSource place h m n) :=
      (mem_mapKeys_addDatabaseSymbolSource place h m n x).2 (Or.inl hx)
    have := ih (addDatabaseSymbolSource place h m n) hx2
    simp only [addDatabaseSources, List.foldl_cons] at this ⊢
    rw [this, mapFind_addDatabaseSymbolSource_of_mem _ _ _ _ _ hx]

theorem mapFind_addDatabaseSources_new (place : KeyPlacement) (h : Host) (L : List String)
    (m : SymbolSourceMap) (x : String) (hx : x ∉ mapKeys m) (hL : x ∈ L)
    (hb : x ≠ "Built-In") :
    (mapFind (addDatabaseSources place h m L) x).map entryFlags =
      some (h.ShouldClearSymbolsFromSourceByDefault x, false) := by
  induction L generalizing m with
  | nil => simp at hL
  | cons n rest ih =>
    show (mapFind (addDatabaseSources place h (addDatabaseSymbolSource place h m n) rest) x).map
      entryFlags = _
    by_cases hxn : x = n
    · subst hxn
      have hstep : addDatabaseSymbolSource place h m x =
          mapAssign place m x (h.ShouldClearSymbolsFromSourceByDefault x) false := by
        unfold addDatabaseSymbolSource
        simp [(mapFind_eq_none_iff m x).2 hx, hb]
      have hmem : x ∈ mapKeys (addDatabaseSymbolSource place h m x) :=
        (mem_mapKeys_addDatabaseSymbolSource place h m x x).2 (Or.inr ⟨rfl, hb⟩)
      rw [mapFind_addDatabaseSources_of_mem _ _ _ _ _ hmem, hstep, mapFind_mapAssign_same]
    · have hx2 : x ∉ mapKeys (addDatabaseSymbolSource place h m n) := by
        rw [mem_mapKeys_addDatabaseSymbolSource]
        rintro (h1 | ⟨h1, _⟩)
        · exact hx h1
        · exact hxn h1
      have hL2 : x ∈ rest := by
        rcases List.mem_cons.1 hL with h1 | h1
        · exact absurd h1 hxn
        · exact h1
      exact ih (addDatabaseSymbolSource place h m n) hx2 hL2

/-! ## Lemmas: the check boxes -/

theorem createCheckBoxes_fst (m : SymbolSourceMap) (i : Nat) :
    (createCheckBoxes m i).1 = withCheckBoxes m := by
  induction m generalizing i with
  | nil => rfl
  | cons e rest ih =>
    obtain ⟨name, temp⟩ := e
    simp only [createCheckBoxes, withCheckBoxes, List.map_cons, ih (i + 1)]

theorem createCheckBoxes_snd (m : SymbolSourceMap) (i : Nat) :
    (createCheckBoxes m i).2 =
      ((mapKeys m).enumFrom i).map (fun p => (p.2, p.1 / 2, p.1 % 2)) := by
  induction m generalizing i with
  | nil => rfl
  | cons e rest ih =>
    obtain ⟨name, temp⟩ := e
    simp only [createCheckBoxes, mapKeys, List.map_cons, List.enumFrom_cons, ih (i + 1)]

theorem mapKeys_withCheckBoxes (m : SymbolSourceMap) : mapKeys (withCheckBoxes m) = mapKeys m := by
  simp [mapKeys, withCheckBoxes, List.map_map, Function.comp_def]

theorem mapFind_withCheckBoxes (m : SymbolSourceMap) (n : String) :
    mapFind (withCheckBoxes m) n =
      (mapFind m n).map (fun t => { t with check_box := some ⟨n, t.previous_value⟩ }) := by
  induction m with
  | nil => rfl
  | cons e rest ih =>
    have : withCheckBoxes (e :: rest) =
        (e.1, { e.2 with check_box := some ⟨e.1, e.2.previous_value⟩ }) :: withCheckBoxes rest := rfl
    rw [this, mapFind_cons, mapFind_cons, ih]
    by_cases h : e.1 = n
    · subst h; simp
    · simp [h]

theorem reconciled_withCheckBoxes (m : SymbolSourceMap) (hnd : (mapKeys m).Nodup) :
    Reconciled (withCheckBoxes m) := by
  refine ⟨by rw [mapKeys_withCheckBoxes]; exact hnd, ?_⟩
  intro e he
  simp only [withCheckBoxes, List.mem_map] at he
  obtain ⟨e0, _, rfl⟩ := he
  rfl

/-! ## Lemmas: `saveSymbolSources` -/

theorem countSymbolSourcesToSave_eq (m : SymbolSourceMap) :
    countSymbolSourcesToSave m = (m.filter (fun e => e.2.modified_by_user)).length := by
  have key : ∀ (l : SymbolSourceMap) (a : Nat),
      l.foldl (fun n e => if e.2.modified_by_user then n + 1 else n) a =
        a + (l.filter (fun e => e.2.modified_by_user)).length := by
    intro l
    induction l with
    | nil => simp
    | cons e rest ih =>
      intro a
      rw [List.foldl_cons, ih]
      by_cases he : e.2.modified_by_user = true
      · simp [he]; omega
      · simp [he]
  simpa [countSymbolSourcesToSave] using key m 0

theorem length_symbolSourcesToSave (m : SymbolSourceMap)
    (hbox : ∀ e ∈ m, e.2.check_box.map QCheckBox.text = some e.1) :
    (symbolSourcesToSave m).length = countSymbolSourcesToSave m := by
  rw [countSymbolSourcesToSave_eq]
  induction m with
  | nil => rfl
  | cons e rest ih =>
    have ih2 := ih (fun x hx => hbox x (List.mem_cons_of_mem _ hx))
    have he := hbox e (List.mem_cons_self _ _)
    obtain ⟨c, hc, _⟩ := Option.map_eq_some'.1 he
    by_cases hm : e.2.modified_by_user = true
    · simp only [symbolSourcesToSave, List.filter_cons, hm, if_true, List.filterMap_cons, hc,
        Option.map_some', List.length_cons] at ih2 ⊢
      rw [ih2]
    · simp only [symbolSourcesToSave, List.filter_cons, hm] at ih2 ⊢
      exact ih2

theorem writeSymbolSources_eq (m : SymbolSourceMap) (sif : SettingsInterface) (i : Nat)
    (hbox : ∀ e ∈ m, e.2.check_box.map QCheckBox.text = some e.1) :
    writeSymbolSources sif i m = some (writePairs sif i (symbolSourcesToSave m)) := by
  induction m generalizing sif i with
  | nil => rfl
  | cons e rest ih =>
    obtain ⟨name, temp⟩ := e
    have hrest := fun x hx => hbox x (List.mem_cons_of_mem _ hx)
    have he := hbox (name, temp) (List.mem_cons_self _ _)
    obtain ⟨c, hc, _⟩ := Option.map_eq_some'.1 he
    simp only at hc
    by_cases hm : temp.modified_by_user = true
    · simp only [writeSymbolSources, hm, Bool.not_true, Bool.false_eq_true, if_false, hc,
        symbolSourcesToSave, List.filter_cons, if_true, List.filterMap_cons, Option.map_some',
        writePairs]
      exact ih _ _ hrest
    · simp only [Bool.not_eq_true] at hm
      simp only [writeSymbolSources, hm, Bool.not_false, if_true, symbolSourcesToSave,
        List.filter_cons, Bool.false_eq_true, if_false]
      exact ih _ _ hrest

theorem lookup_writePairs_other (l : List (String × Bool)) (sif : SettingsInterface) (i : Nat)
    (sec key : String) (h : ∀ j, j < l.length → sec ≠ symbolSourceSection (i + j)) :
    (writePairs sif i l).lookup sec key = sif.lookup sec key := by
  induction l generalizing sif i with
  | nil => rfl
  | cons p rest ih =>
    have h0 : sec ≠ symbolSourceSection i := by simpa using h 0 (by simp)
    have hrest : ∀ j, j < rest.length → sec ≠ symbolSourceSection (i + 1 + j) := by
      intro j hj
      have := h (j + 1) (by simpa using hj)
      rwa [show i + (j + 1) = i + 1 + j by omega] at this
    rw [writePairs, ih _ _ hrest]
    simp only [SettingsInterface.SetBoolValue, SettingsInterface.SetStringValue]
    rw [SettingsInterface.lookup_store_other _ _ _ _ _ _ (fun hh => h0 hh.1),
      SettingsInterface.lookup_store_other _ _ _ _ _ _ (fun hh => h0 hh.1)]

theorem lookup_writePairs_at (l : List (String × Bool)) (sif : SettingsInterface) (i j : Nat)
    (hj : j < l.length) :
    (writePairs sif i l).lookup (symbolSourceSection (i + j)) "Name" =
        some (.str (l.get ⟨j, hj⟩).1) ∧
      (writePairs sif i l).lookup (symbolSourceSection (i + j)) "ClearDuringAnalysis" =
        some (.bool (l.get ⟨j, hj⟩).2) := by
  induction l generalizing sif i j with
  | nil => simp at hj
  | cons p rest ih =>
    cases j with
    | zero =>
      have hother : ∀ k, k < rest.length →
          symbolSourceSection i ≠ symbolSourceSection (i + 1 + k) := by
        intro k _ hh
        have := symbolSourceSection_injective _ _ hh
        omega
      simp only [Nat.add_zero, writePairs, List.get_eq_getElem, List.getElem_cons_zero]
      rw [lookup_writePairs_other _ _ _ _ _ hother, lookup_writePairs_other _ _ _ _ _ hother]
      simp only [SettingsInterface.SetBoolValue, SettingsInterface.SetStringValue]
      constructor
      · rw [SettingsInterface.lookup_store_other _ _ _ _ _ _
            (fun hh => absurd hh.2 (by decide)),
          SettingsInterface.lookup_store_same]
      · rw [SettingsInterface.lookup_store_same]
    | succ j =>
      have hj2 : j < rest.length := by simpa using hj
      have := ih (((sif.SetStringValue (symbolSourceSection i) "Name" p.1).SetBoolValue
        (symbolSourceSection i) "ClearDuringAnalysis" p.2)) (i + 1) j hj2
      rw [show i + 1 + j = i + (j + 1) by omega] at this
      simpa [writePairs] using this

theorem hasSection_writePairs (l : List (String × Bool)) (sif : SettingsInterface) (i : Nat)
    (sec : String) :
    (writePairs sif i l).hasSection sec = true ↔
      (∃ j, j < l.length ∧ sec = symbolSourceSection (i + j)) ∨ sif.hasSection sec = true := by
  induction l generalizing sif i with
  | nil => simp [writePairs]
  | cons p rest ih =>
    rw [writePairs, ih]
    simp only [SettingsInterface.SetBoolValue, SettingsInterface.SetStringValue,
      SettingsInterface.hasSection_store, Bool.or_eq_true, decide_eq_true_eq, List.length_cons]
    constructor
    · rintro (⟨j, hj, rfl⟩ | h1 | h1 | h1)
      · exact Or.inl ⟨j + 1, by omega, by rw [show i + (j + 1) = i + 1 + j by omega]⟩
      · exact Or.inl ⟨0, by omega, by simpa using h1⟩
      · exact Or.inl ⟨0, by omega, by simpa using h1⟩
      · exact Or.inr h1
    · rintro (⟨j, hj, rfl⟩ | h1)
      · cases j with
        | zero => exact Or.inr (Or.inl rfl)
        | succ j =>
          exact Or.inl ⟨j, by omega, by rw [show i + (j + 1) = i + 1 + j by omega]⟩
      · exact Or.inr (Or.inr (Or.inr h1))

theorem lookup_removeSections (l : List Nat) (sif : SettingsInterface) (sec key : String) :
    (l.foldl (fun s i => s.RemoveSection (symbolSourceSection i)) sif).lookup sec key =
      if ∃ j ∈ l, sec = symbolSourceSection j then none else sif.lookup sec key := by
  induction l generalizing sif with
  | nil => simp
  | cons i rest ih =>
    rw [List.foldl_cons, ih]
    by_cases h1 : ∃ j ∈ rest, sec = symbolSourceSection j
    · have h2 : ∃ j ∈ i :: rest, sec = symbolSourceSection j := by
        obtain ⟨j, hj, hs⟩ := h1
        exact ⟨j, List.mem_cons_of_mem _ hj, hs⟩
      rw [if_pos h1, if_pos h2]
    · rw [if_neg h1]
      by_cases h3 : sec = symbolSourceSection i
      · have h2 : ∃ j ∈ i :: rest, sec = symbolSourceSection j := ⟨i, List.mem_cons_self _ _, h3⟩
        rw [if_pos h2, h3, SettingsInterface.lookup_RemoveSection_same]
      · have h2 : ¬ ∃ j ∈ i :: rest, sec = symbolSourceSection j := by
          rintro ⟨j, hj, hs⟩
          rcases List.mem_cons.1 hj with rfl | hj
          · exact h3 hs
          · exact h1 ⟨j, hj, hs⟩
        rw [if_neg h2, SettingsInterface.lookup_RemoveSection_other _ _ _ _ h3]

theorem hasSection_removeSections (l : List Nat) (sif : SettingsInterface) (sec : String) :
    (l.foldl (fun s i => s.RemoveSection (symbolSourceSection i)) sif).hasSection sec = true ↔
      sif.hasSection sec = true ∧ ∀ j ∈ l, sec ≠ symbolSourceSection j := by
  induction l generalizing sif with
  | nil => simp
  | cons i rest ih =>
    rw [List.foldl_cons, ih, SettingsInterface.hasSection_RemoveSection]
    simp only [Bool.and_eq_true, Bool.not_eq_true', decide_eq_false_iff_not, List.mem_cons,
      forall_eq_or_imp, ne_eq]
    tauto

theorem entries_removeSections_subset (l : List Nat) (sif : SettingsInterface) :
    ∀ e ∈ (l.foldl (fun s i => s.RemoveSection (symbolSourceSection i)) sif).entries,
      e ∈ sif.entries := by
  induction l generalizing sif with
  | nil => intro e he; exact he
  | cons i rest ih =>
    intro e he
    have := ih (sif.RemoveSection (symbolSourceSection i)) e he
    exact (List.mem_filter.1 this).1

theorem saveSymbolSourcesTo_eq (sif : SettingsInterface) (m : SymbolSourceMap)
    (hbox : ∀ e ∈ m, e.2.check_box.map QCheckBox.text = some e.1) :
    saveSymbolSourcesTo sif m = some (savedSettings sif m) := by
  unfold saveSymbolSourcesTo savedSettings
  by_cases hk : countSymbolSourcesToSave m = 0
  · simp [hk]
  · simp only [hk, if_false]
    exact writeSymbolSources_eq m _ 0 hbox

theorem persistedSymbolSources_eq_of_lookup (sif : SettingsInterface) (l : List (String × Bool))
    (hc : sif.GetIntValue "Debugger/Analysis/SymbolSources" "Count" 0 = l.length)
    (hat : ∀ j (hj : j < l.length),
      sif.lookup (symbolSourceSection j) "Name" = some (.str (l.get ⟨j, hj⟩).1) ∧
      sif.lookup (symbolSourceSection j) "ClearDuringAnalysis" =
        some (.bool (l.get ⟨j, hj⟩).2)) :
    persistedSymbolSources sif = l := by
  unfold persistedSymbolSources
  rw [hc, Int.toNat_ofNat]
  apply List.ext_get
  · simp
  · intro j h1 h2
    obtain ⟨hn, hv⟩ := hat j h2
    simp [SettingsInterface.GetStringValue, SettingsInterface.GetBoolValue, hn, hv]

theorem savedSettings_count (sif : SettingsInterface) (m : SymbolSourceMap) :
    (savedSettings sif m).lookup "Debugger/Analysis/SymbolSources" "Count" =
      if countSymbolSourcesToSave m = 0 then none
      else some (.int (countSymbolSourcesToSave m)) := by
  unfold savedSettings
  by_cases hk : countSymbolSourcesToSave m = 0
  · simp only [hk, if_true]
    exact SettingsInterface.lookup_RemoveSection_same _ _ _
  · simp only [hk, if_false]
    rw [lookup_writePairs_other _ _ _ _ _
      (fun j _ hh => symbolSourceSection_ne_parent _ hh.symm)]
    exact SettingsInterface.lookup_store_same _ _ _ _

theorem savedSettings_getCount (sif : SettingsInterface) (m : SymbolSourceMap) :
    (savedSettings sif m).GetIntValue "Debugger/Analysis/SymbolSources" "Count" 0 =
      countSymbolSourcesToSave m := by
  unfold SettingsInterface.GetIntValue
  rw [savedSettings_count]
  by_cases hk : countSymbolSourcesToSave m = 0
  · simp [hk]
  · simp [hk]

theorem persistedSymbolSources_savedSettings (sif : SettingsInterface) (m : SymbolSourceMap)
    (hbox : ∀ e ∈ m, e.2.check_box.map QCheckBox.text = some e.1) :
    persistedSymbolSources (savedSettings sif m) = symbolSourcesToSave m := by
  have hlen := length_symbolSourcesToSave m hbox
  apply persistedSymbolSources_eq_of_lookup
  · rw [savedSettings_getCount, hlen]
  · intro j hj
    have hk : countSymbolSourcesToSave m ≠ 0 := by omega
    unfold savedSettings
    simp only [hk, if_false]
    have := lookup_writePairs_at (symbolSourcesToSave m)
      (((removeOldSections sif
        (sif.GetIntValue "Debugger/Analysis/SymbolSources" "Count" 0)).RemoveSection
          "Debugger/Analysis/SymbolSources").SetIntValue "Debugger/Analysis/SymbolSources" "Count"
            (countSymbolSourcesToSave m)) 0 j hj
    simpa using this

theorem hasSection_savedSettings (sif : SettingsInterface) (m : SymbolSourceMap)
    (hbox : ∀ e ∈ m, e.2.check_box.map QCheckBox.text = some e.1)
    (hwf : ∀ i, sif.hasSection (symbolSourceSection i) = true →
      (i : Int) < sif.GetIntValue "Debugger/Analysis/SymbolSources" "Count" 0)
    (i : Nat) :
    (savedSettings sif m).hasSection (symbolSourceSection i) = true ↔
      i < countSymbolSourcesToSave m := by
  have hlen := length_symbolSourcesToSave m hbox
  have hcleared : ((removeOldSections sif
      (sif.GetIntValue "Debugger/Analysis/SymbolSources" "Count" 0)).RemoveSection
        "Debugger/Analysis/SymbolSources").hasSection (symbolSourceSection i) = false := by
    rw [SettingsInterface.hasSection_RemoveSection]
    simp only [symbolSourceSection_ne_parent, decide_False, Bool.not_false, Bool.true_and]
    rw [Bool.eq_false_iff]
    intro hh
    have := (hasSection_removeSections _ _ _).1 hh
    have hlt := hwf i this.1
    exact this.2 i (by simp only [List.mem_range]; omega) rfl
  unfold savedSettings
  by_cases hk : countSymbolSourcesToSave m = 0
  · simp only [hk, if_true, hcleared]
    simp
  · simp only [hk, if_false]
    rw [hasSection_writePairs, SettingsInterface.SetIntValue, SettingsInterface.hasSection_store,
      hcleared]
    simp only [symbolSourceSection_ne_parent, decide_False, Bool.or_false, Bool.false_eq_true,
      or_false, hlen, Nat.zero_add]
    constructor
    · rintro ⟨j, hj, hs⟩
      rw [symbolSourceSection_injective _ _ hs]
      exact hj
    · intro hi
      exact ⟨i, hi, rfl⟩

theorem savedSettings_of_count_zero (sif : SettingsInterface) (m : SymbolSourceMap)
    (hk : countSymbolSourcesToSave m = 0) :
    (savedSettings sif m).hasSection "Debugger/Analysis/SymbolSources" = false ∧
      ∀ e ∈ (savedSettings sif m).entries, e ∈ sif.entries := by
  unfold savedSettings
  simp only [hk, if_true]
  constructor
  · rw [SettingsInterface.hasSection_RemoveSection]
    simp
  · intro e he
    have := (List.mem_filter.1 he).1
    exact entries_removeSections_subset _ _ e this

/-! ## Lemmas: `setupSymbolSourceGrid` -/

theorem addExistingSymbolSource_eq (place : KeyPlacement) (h : Host) (d : Option SettingsWindow)
    (m : SymbolSourceMap) (i : Nat) :
    addExistingSymbolSource place h d m i =
      mapAssign place m
        ((effectiveSettings h d).GetStringValue (symbolSourceSection i) "Name" "")
        ((effectiveSettings h d).GetBoolValue (symbolSourceSection i) "ClearDuringAnalysis" false)
        true := by
  unfold addExistingSymbolSource effectiveSettings
  cases d with
  | none => rfl
  | some dlg =>
    cases hs : dlg.sif <;>
      simp [SettingsWindow.getEffectiveStringValue, SettingsWindow.getEffectiveBoolValue, hs,
        Host.GetStringSettingValue, Host.GetBoolSettingValue]

theorem foldl_addExistingSymbolSource (place : KeyPlacement) (h : Host)
    (d : Option SettingsWindow) (l : List Nat) (m : SymbolSourceMap) :
    l.foldl (addExistingSymbolSource place h d) m =
      assignPersisted place m (l.map (fun i =>
        ((effectiveSettings h d).GetStringValue (symbolSourceSection i) "Name" "",
          (effectiveSettings h d).GetBoolValue (symbolSourceSection i) "ClearDuringAnalysis"
            false))) := by
  induction l generalizing m with
  | nil => rfl
  | cons i rest ih =>
    simp only [List.foldl_cons, List.map_cons, assignPersisted]
    rw [ih, addExistingSymbolSource_eq]
    rfl

theorem existing_count_eq (h : Host) (d : Option SettingsWindow) :
    (match d with
      | some dlg => dlg.getEffectiveIntValue h "Debugger/Analysis/SymbolSources" "Count" 0
      | none => h.GetIntSettingValue "Debugger/Analysis/SymbolSources" "Count" 0) =
      (effectiveSettings h d).GetIntValue "Debugger/Analysis/SymbolSources" "Count" 0 := by
  unfold effectiveSettings
  cases d with
  | none => rfl
  | some dlg =>
    cases hs : dlg.sif <;> simp [SettingsWindow.getEffectiveIntValue, hs, Host.GetIntSettingValue]

theorem setupSymbolSourceGrid_of_open (place : KeyPlacement) (h : Host)
    (d : Option SettingsWindow) (hopen : ∀ dlg, d = some dlg → dlg.serial = h.GetCurrentGameSerial) :
    setupSymbolSourceGrid place h (newWidget d) =
      let m := addDatabaseSources place h
        (assignPersisted place [] (persistedSymbolSources (effectiveSettings h d)))
        h.symbol_sources
      if m.isEmpty then
        ⟨d, m, ⟨"<i>No symbol sources in database.</i>", false, true, [], "", ""⟩⟩
      else
        ⟨d, (createCheckBoxes m 0).1, ⟨"", true, false, (createCheckBoxes m 0).2, "", ""⟩⟩ := by
  have hcount := existing_count_eq h d
  unfold setupSymbolSourceGrid
  cases d with
  | none =>
    simp only [newWidget, if_true, foldl_addExistingSymbolSource, List.nil_append]
    rfl
  | some dlg =>
    have hs : (dlg.serial == h.GetCurrentGameSerial) = true := by simp [hopen dlg rfl]
    simp only at hcount
    simp only [newWidget, hs, if_true, hcount, foldl_addExistingSymbolSource, List.nil_append]
    rfl

theorem setupSymbolSourceGrid_sources (place : KeyPlacement) (h : Host)
    (d : Option SettingsWindow) (hopen : ∀ dlg, d = some dlg → dlg.serial = h.GetCurrentGameSerial) :
    (setupSymbolSourceGrid place h (newWidget d)).m_symbol_sources =
      reconcile place h (persistedSymbolSources (effectiveSettings h d)) := by
  rw [setupSymbolSourceGrid_of_open place h d hopen]
  simp only [reconcile]
  split
  · rename_i he
    rw [List.isEmpty_iff] at he
    simp only [he]
    rfl
  · simp only [createCheckBoxes_fst]

theorem setupSymbolSourceGrid_grid (place : KeyPlacement) (h : Host)
    (d : Option SettingsWindow) (hopen : ∀ dlg, d = some dlg → dlg.serial = h.GetCurrentGameSerial) :
    (setupSymbolSourceGrid place h (newWidget d)).m_ui.symbolSourceGrid =
      ((mapKeys (setupSymbolSourceGrid place h (newWidget d)).m_symbol_sources).enum).map
        (fun p => (p.2, p.1 / 2, p.1 % 2)) := by
  rw [setupSymbolSourceGrid_of_open place h d hopen]
  simp only
  split
  · rename_i he
    rw [List.isEmpty_iff] at he
    simp [he, mapKeys]
  · simp only [createCheckBoxes_fst, createCheckBoxes_snd, mapKeys_withCheckBoxes, List.enum]

theorem setupSymbolSourceGrid_empty_iff (place : KeyPlacement) (h : Host)
    (d : Option SettingsWindow) (hopen : ∀ dlg, d = some dlg → dlg.serial = h.GetCurrentGameSerial) :
    (setupSymbolSourceGrid place h (newWidget d)).m_symbol_sources = [] ↔
      showsNoSymbolSources (setupSymbolSourceGrid place h (newWidget d)) := by
  rw [setupSymbolSourceGrid_of_open place h d hopen]
  simp only
  split
  · rename_i he
    rw [List.isEmpty_iff] at he
    simp [he, showsNoSymbolSources]
  · rename_i he
    rw [List.isEmpty_iff] at he
    simp only [createCheckBoxes_fst, showsNoSymbolSources]
    constructor
    · intro hm
      exfalso
      apply he
      have := congrArg List.length hm
      simp only [withCheckBoxes, List.length_map, List.length_nil] at this
      exact List.length_eq_zero.1 this
    · intro hm
      exact absurd hm.2.1 (by decide)

theorem mem_mapKeys_reconcile (place : KeyPlacement) (h : Host) (P : List (String × Bool))
    (n : String) :
    n ∈ mapKeys (reconcile place h P) ↔
      n ∈ P.map Prod.fst ∨ (n ∈ h.symbol_sources ∧ n ≠ "Built-In") := by
  simp only [reconcile, mapKeys_withCheckBoxes, mem_mapKeys_addDatabaseSources,
    mem_mapKeys_assignPersisted]
  simp [mapKeys]

theorem nodup_mapKeys_reconcile (place : KeyPlacement) (h : Host) (P : List (String × Bool)) :
    (mapKeys (reconcile place h P)).Nodup := by
  simp only [reconcile, mapKeys_withCheckBoxes]
  apply nodup_mapKeys_addDatabaseSources
  apply nodup_mapKeys_assignPersisted
  simp [mapKeys]

theorem mapFind_withCheckBoxes_of_flags (m : SymbolSourceMap) (n : String) (v u : Bool)
    (hf : (mapFind m n).map entryFlags = some (v, u)) :
    mapFind (withCheckBoxes m) n = some ⟨some ⟨n, v⟩, v, u⟩ := by
  rw [mapFind_withCheckBoxes]
  obtain ⟨t, ht, hflags⟩ := Option.map_eq_some'.1 hf
  simp only [entryFlags, Prod.mk.injEq] at hflags
  rw [ht, Option.map_some', ← hflags.1, ← hflags.2]

theorem mapFind_reconcile_persisted (place : KeyPlacement) (h : Host)
    (P1 P2 : List (String × Bool)) (n : String) (v : Bool) (hn : n ∉ P2.map Prod.fst) :
    mapFind (reconcile place h (P1 ++ (n, v) :: P2)) n = some ⟨some ⟨n, v⟩, v, true⟩ := by
  apply mapFind_withCheckBoxes_of_flags
  have hmem : n ∈ mapKeys (assignPersisted place [] (P1 ++ (n, v) :: P2)) := by
    rw [mem_mapKeys_assignPersisted]
    left
    simp
  rw [mapFind_addDatabaseSources_of_mem _ _ _ _ _ hmem]
  exact mapFind_assignPersisted_last place P1 P2 [] n v hn

theorem mapFind_reconcile_database (place : KeyPlacement) (h : Host) (P : List (String × Bool))
    (n : String) (hL : n ∈ h.symbol_sources) (hP : n ∉ P.map Prod.fst) (hb : n ≠ "Built-In") :
    mapFind (reconcile place h P) n =
      some ⟨some ⟨n, h.ShouldClearSymbolsFromSourceByDefault n⟩,
        h.ShouldClearSymbolsFromSourceByDefault n, false⟩ := by
  apply mapFind_withCheckBoxes_of_flags
  apply mapFind_addDatabaseSources_new _ _ _ _ _ _ hL hb
  rw [mem_mapKeys_assignPersisted]
  simp only [mapKeys, List.map_nil, List.not_mem_nil, or_false]
  exact hP

/-! ## Lemmas: toggling -/

theorem mapUpdate_of_not_mem (m : SymbolSourceMap) (n : String)
    (f : SymbolSourceTemp → SymbolSourceTemp) (hn : n ∉ mapKeys m) : mapUpdate m n f = m := by
  unfold mapUpdate
  conv_rhs => rw [← List.map_id m]
  apply List.map_congr_left
  intro e he
  have : ¬ e.1 = n := by
    rintro rfl
    exact hn (List.mem_map.2 ⟨e, he, rfl⟩)
  simp [this]

theorem setCheckState_eq_mapUpdate (m : SymbolSourceMap) (n : String) (v : Bool)
    (hbox : ∀ e ∈ m, e.2.check_box.map QCheckBox.text = some e.1) :
    setCheckState m n v = mapUpdate m n (fun t => { t with check_box := some ⟨n, v⟩ }) := by
  unfold setCheckState mapUpdate
  apply List.map_congr_left
  intro e he
  obtain ⟨c, hc, ht⟩ := Option.map_eq_some'.1 (hbox e he)
  simp only [hc, ht]

theorem mem_mapUpdate (m : SymbolSourceMap) (n : String)
    (f : SymbolSourceTemp → SymbolSourceTemp) (e : String × SymbolSourceTemp)
    (he : e ∈ mapUpdate m n f) :
    (e.1 ≠ n ∧ e ∈ m) ∨ (e.1 = n ∧ ∃ t, (n, t) ∈ m ∧ e.2 = f t) := by
  simp only [mapUpdate, List.mem_map] at he
  obtain ⟨e0, he0, rfl⟩ := he
  by_cases h : e0.1 = n
  · right
    simp only [h, beq_self_eq_true, if_true, true_and]
    exact ⟨e0.2, by rw [← h]; exact he0, rfl⟩
  · left
    simp [h, he0]

theorem reconciled_mapUpdate (m : SymbolSourceMap) (n : String)
    (f : SymbolSourceTemp → SymbolSourceTemp) (hm : Reconciled m)
    (hf : ∀ t, t.check_box.map QCheckBox.text = some n →
      (f t).check_box.map QCheckBox.text = some n) :
    Reconciled (mapUpdate m n f) := by
  refine ⟨by rw [mapKeys_mapUpdate]; exact hm.1, ?_⟩
  intro e he
  rcases mem_mapUpdate m n f e he with ⟨_, h1⟩ | ⟨h0, t, ht, hft⟩
  · exact hm.2 e h1
  · rw [hft, h0]
    exact hf t (hm.2 (n, t) ht)

theorem reconciled_toggled (m : SymbolSourceMap) (n : String) (v : Bool) (hm : Reconciled m) :
    Reconciled (toggled m n v) := by
  apply reconciled_mapUpdate
  · apply reconciled_mapUpdate _ _ _ hm
    intro t _
    rfl
  · intro t ht
    exact ht

theorem mapKeys_toggled (m : SymbolSourceMap) (n : String) (v : Bool) :
    mapKeys (toggled m n v) = mapKeys m := by
  simp only [toggled, mapKeys_mapUpdate]

theorem mapFind_toggled_same (m : SymbolSourceMap) (n : String) (v : Bool) :
    mapFind (toggled m n v) n =
      (mapFind m n).map (fun t => ⟨some ⟨n, v⟩, t.previous_value, true⟩) := by
  simp only [toggled, mapFind_mapUpdate_same, Option.map_map]
  rfl

theorem mapFind_toggled_other (m : SymbolSourceMap) (n x : String) (v : Bool) (hx : x ≠ n) :
    mapFind (toggled m n v) x = mapFind m x := by
  simp only [toggled, mapFind_mapUpdate_other _ _ _ _ hx]

theorem saveSymbolSources_bound (w : DebugAnalysisSettingsWidget) (d : SettingsWindow)
    (sif : SettingsInterface) (hd : w.m_dialog = some d) (hs : d.sif = some sif)
    (hbox : ∀ e ∈ w.m_symbol_sources, e.2.check_box.map QCheckBox.text = some e.1) :
    saveSymbolSources w =
      some { w with m_dialog := some { d with sif := some (savedSettings sif w.m_symbol_sources) } } := by
  unfold saveSymbolSources
  simp only [hd, hs, saveSymbolSourcesTo_eq sif w.m_symbol_sources hbox, Option.map_some']

theorem toggle_of_mem (w : DebugAnalysisSettingsWidget) (n : String) (v : Bool)
    (hm : Reconciled w.m_symbol_sources) (hn : n ∈ mapKeys w.m_symbol_sources) :
    toggle w n v = saveSymbolSources { w with m_symbol_sources := toggled w.m_symbol_sources n v } := by
  unfold toggle symbolSourceCheckStateChanged
  simp only [setCheckState_eq_mapUpdate _ n v hm.2]
  have hfind : (mapFind (mapUpdate w.m_symbol_sources n
      (fun t => { t with check_box := some ⟨n, v⟩ })) n).isSome = true := by
    rw [mapFind_isSome_iff, mapKeys_mapUpdate]
    exact hn
  obtain ⟨t, ht⟩ := Option.isSome_iff_exists.1 hfind
  simp only [ht]
  rfl

theorem toggle_of_not_mem (w : DebugAnalysisSettingsWidget) (n : String) (v : Bool)
    (hm : Reconciled w.m_symbol_sources) (hn : n ∉ mapKeys w.m_symbol_sources) :
    toggle w n v = some w := by
  unfold toggle symbolSourceCheckStateChanged
  simp only [setCheckState_eq_mapUpdate _ n v hm.2, mapUpdate_of_not_mem _ n _ hn,
    (mapFind_eq_none_iff _ n).2 hn]

theorem mem_symbolSourcesToSave (m : SymbolSourceMap) (x : String) (b : Bool) :
    (x, b) ∈ symbolSourcesToSave m ↔
      ∃ t, (x, t) ∈ m ∧ t.modified_by_user = true ∧ ∃ c, t.check_box = some c ∧ c.checked = b := by
  simp only [symbolSourcesToSave, List.mem_filterMap, List.mem_filter, Option.map_eq_some',
    Prod.mk.injEq]
  constructor
  · rintro ⟨e, ⟨he, hmod⟩, c, hc, hx, hb⟩
    exact ⟨e.2, by rw [← hx]; exact he, hmod, c, hc, hb⟩
  · rintro ⟨t, ht, hmod, c, hc, hb⟩
    exact ⟨(x, t), ⟨ht, hmod⟩, c, hc, rfl, hb⟩

/-! ## The properties -/

/-- C1: in the container `setupSymbolSourceGrid` builds from the persisted list `P`, the
database sources `L` and the default policy, every pair `(n, v)` of `P` whose name does not
occur again later in `P` gives the entry `n` the clear flag `v` (held by `previous_value`
and shown by its check box) with `modified_by_user = true`, and every name of `L` that is not
a name of `P` and is not `"Built-In"` gives an entry with the policy's default and
`modified_by_user = false`. -/
theorem setupSymbolSourceGrid_entry_values (place : KeyPlacement) (h : Host)
    (d : Option SettingsWindow) (P : List (String × Bool))
    (hopen : ∀ dlg, d = some dlg → dlg.serial = h.GetCurrentGameSerial)
    (hP : persistedSymbolSources (effectiveSettings h d) = P) :
    (∀ P1 P2 n v, P = P1 ++ (n, v) :: P2 → n ∉ P2.map Prod.fst →
      mapFind (setupSymbolSourceGrid place h (newWidget d)).m_symbol_sources n =
        some ⟨some ⟨n, v⟩, v, true⟩) ∧
    (∀ n, n ∈ h.symbol_sources → n ∉ P.map Prod.fst → n ≠ "Built-In" →
      mapFind (setupSymbolSourceGrid place h (newWidget d)).m_symbol_sources n =
        some ⟨some ⟨n, h.ShouldClearSymbolsFromSourceByDefault n⟩,
          h.ShouldClearSymbolsFromSourceByDefault n, false⟩) := by
  rw [setupSymbolSourceGrid_sources place h d hopen, hP]
  constructor
  · intro P1 P2 n v hsplit hn
    rw [hsplit]
    exact mapFind_reconcile_persisted place h P1 P2 n v hn
  · intro n hL hn hb
    exact mapFind_reconcile_database place h P n hL hn hb

/-- C1, the scenario of the spec: `P = [("ModuleA", true)]`, the database holds `ModuleA`,
`ModuleB` and `Built-In`, and the default for `ModuleB` is `false`. -/
theorem setupSymbolSourceGrid_entry_values_witness :
    persistedSymbolSources (effectiveSettings
        (scenarioHost ["ModuleA", "ModuleB", "Built-In"])
        (scenarioDialog (storageOf [("ModuleA", true)]))) = [("ModuleA", true)] ∧
      (setupSymbolSourceGrid insertionOrder (scenarioHost ["ModuleA", "ModuleB", "Built-In"])
        (newWidget (scenarioDialog (storageOf [("ModuleA", true)])))).m_symbol_sources =
        [("ModuleA", ⟨some ⟨"ModuleA", true⟩, true, true⟩),
          ("ModuleB", ⟨some ⟨"ModuleB", false⟩, false, false⟩)] ∧
      mapFind (setupSymbolSourceGrid insertionOrder
        (scenarioHost ["ModuleA", "ModuleB", "Built-In"])
        (newWidget (scenarioDialog (storageOf [("ModuleA", true)])))).m_symbol_sources "ModuleA" =
        some ⟨some ⟨"ModuleA", true⟩, true, true⟩ ∧
      mapFind (setupSymbolSourceGrid insertionOrder
        (scenarioHost ["ModuleA", "ModuleB", "Built-In"])
        (newWidget (scenarioDialog (storageOf [("ModuleA", true)])))).m_symbol_sources "ModuleB" =
        some ⟨some ⟨"ModuleB", false⟩, false, false⟩ :=
  ⟨by decide, by decide,
    (setupSymbolSourceGrid_entry_values insertionOrder
      (scenarioHost ["ModuleA", "ModuleB", "Built-In"])
      (scenarioDialog (storageOf [("ModuleA", true)])) [("ModuleA", true)]
      (fun dlg hd => by cases hd; rfl) (by decide)).1 [] [] "ModuleA" true rfl (by decide),
    (setupSymbolSourceGrid_entry_values insertionOrder
      (scenarioHost ["ModuleA", "ModuleB", "Built-In"])
      (scenarioDialog (storageOf [("ModuleA", true)])) [("ModuleA", true)]
      (fun dlg hd => by cases hd; rfl) (by decide)).2 "ModuleB" (by decide) (by decide)
      (by decide)⟩

/-- C2: the container `setupSymbolSourceGrid` builds holds each name once, its names are
exactly the names of `P` together with the database names other than `"Built-In"`, so it
has as many entries as that union has names, also when `P` or `L` repeats a name; and it is
empty exactly when the panel shows the message for an empty database. -/
theorem setupSymbolSourceGrid_names (place : KeyPlacement) (h : Host)
    (d : Option SettingsWindow) (P : List (String × Bool))
    (hopen : ∀ dlg, d = some dlg → dlg.serial = h.GetCurrentGameSerial)
    (hP : persistedSymbolSources (effectiveSettings h d) = P) :
    (mapKeys (setupSymbolSourceGrid place h (newWidget d)).m_symbol_sources).Nodup ∧
    (∀ n, n ∈ mapKeys (setupSymbolSourceGrid place h (newWidget d)).m_symbol_sources ↔
      n ∈ P.map Prod.fst ∨ (n ∈ h.symbol_sources ∧ n ≠ "Built-In")) ∧
    (setupSymbolSourceGrid place h (newWidget d)).m_symbol_sources.length =
      (P.map Prod.fst ++ h.symbol_sources.filter (fun n => n != "Built-In")).dedup.length ∧
    ((setupSymbolSourceGrid place h (newWidget d)).m_symbol_sources = [] ↔
      showsNoSymbolSources (setupSymbolSourceGrid place h (newWidget d))) := by
  refine ⟨?_, ?_, ?_, setupSymbolSourceGrid_empty_iff place h d hopen⟩
  · rw [setupSymbolSourceGrid_sources place h d hopen]
    exact nodup_mapKeys_reconcile place h _
  · intro n
    rw [setupSymbolSourceGrid_sources place h d hopen, hP]
    exact mem_mapKeys_reconcile place h P n
  · rw [setupSymbolSourceGrid_sources place h d hopen, hP]
    have hperm : (mapKeys (reconcile place h P)).Perm
        (P.map Prod.fst ++ h.symbol_sources.filter (fun n => n != "Built-In")).dedup := by
      rw [List.perm_ext_iff_of_nodup (nodup_mapKeys_reconcile place h P) (List.nodup_dedup _)]
      intro n
      rw [mem_mapKeys_reconcile, List.mem_dedup, List.mem_append, List.mem_filter]
      simp
    have := hperm.length_eq
    simpa [mapKeys] using this

/-- C2, the scenario of the spec: nothing persisted and a database that holds only
`"Built-In"` give the empty container and the message for an empty database. -/
theorem setupSymbolSourceGrid_names_witness :
    persistedSymbolSources (effectiveSettings (scenarioHost ["Built-In"]) none) = [] ∧
      (setupSymbolSourceGrid insertionOrder (scenarioHost ["Built-In"])
        (newWidget none)).m_symbol_sources = [] ∧
      showsNoSymbolSources (setupSymbolSourceGrid insertionOrder (scenarioHost ["Built-In"])
        (newWidget none)) :=
  ⟨by decide, by decide,
    (setupSymbolSourceGrid_names insertionOrder (scenarioHost ["Built-In"]) none []
      (fun dlg hd => by cases hd) (by decide)).2.2.2.1 (by decide)⟩

theorem mapKeys_setCheckState (m : SymbolSourceMap) (n : String) (v : Bool) :
    mapKeys (setCheckState m n v) = mapKeys m := by
  simp only [mapKeys, setCheckState, List.map_map]
  apply List.map_congr_left
  intro e _
  simp only [Function.comp]
  cases e.2.check_box with
  | none => rfl
  | some c => by_cases hc : c.text = n <;> simp [hc]

theorem saveSymbolSources_sources (w w1 : DebugAnalysisSettingsWidget)
    (h : saveSymbolSources w = some w1) :
    w1.m_symbol_sources = w.m_symbol_sources ∧ w1.m_ui = w.m_ui := by
  unfold saveSymbolSources at h
  cases hd : w.m_dialog with
  | none =>
    simp only [hd, Option.some.injEq] at h
    subst h
    exact ⟨rfl, rfl⟩
  | some d =>
    cases hs : d.sif with
    | none =>
      simp only [hd, hs, Option.some.injEq] at h
      subst h
      exact ⟨rfl, rfl⟩
    | some sif =>
      simp only [hd, hs, Option.map_eq_some'] at h
      obtain ⟨s, _, rfl⟩ := h
      exact ⟨rfl, rfl⟩

theorem mapKeys_toggle (w w1 : DebugAnalysisSettingsWidget) (n : String) (v : Bool)
    (h : toggle w n v = some w1) : mapKeys w1.m_symbol_sources = mapKeys w.m_symbol_sources := by
  unfold toggle symbolSourceCheckStateChanged at h
  simp only at h
  split at h
  · simp only [Option.some.injEq] at h
    subst h
    exact mapKeys_setCheckState _ _ _
  · rw [(saveSymbolSources_sources _ _ h).1]
    simp only [mapKeys_mapUpdate, mapKeys_setCheckState]

/-- C3, as stated, fails: a persisted pair named `"Built-In"` is loaded like any other, so the
container holds an entry of that name. -/
theorem builtIn_persisted_is_loaded :
    persistedSymbolSources (effectiveSettings (scenarioHost [])
        (scenarioDialog (storageOf [("Built-In", true)]))) = [("Built-In", true)] ∧
      mapFind (setupSymbolSourceGrid insertionOrder (scenarioHost [])
        (newWidget (scenarioDialog (storageOf [("Built-In", true)])))).m_symbol_sources
        "Built-In" = some ⟨some ⟨"Built-In", true⟩, true, true⟩ :=
  ⟨by decide, by decide⟩

/-- C3, amended: `"Built-In"` is kept out only where it comes from the database. The container
`setupSymbolSourceGrid` builds has an entry named `"Built-In"` exactly when the persisted list
`P` holds a pair of that name, whatever the database holds, and neither a toggle nor a save
changes the names held. -/
theorem builtIn_only_from_persisted (place : KeyPlacement) (h : Host)
    (d : Option SettingsWindow) (P : List (String × Bool))
    (hopen : ∀ dlg, d = some dlg → dlg.serial = h.GetCurrentGameSerial)
    (hP : persistedSymbolSources (effectiveSettings h d) = P) :
    ("Built-In" ∈ mapKeys (setupSymbolSourceGrid place h (newWidget d)).m_symbol_sources ↔
      "Built-In" ∈ P.map Prod.fst) ∧
    (∀ w w1 n v, toggle w n v = some w1 →
      mapKeys w1.m_symbol_sources = mapKeys w.m_symbol_sources) ∧
    (∀ w w1, saveSymbolSources w = some w1 → w1.m_symbol_sources = w.m_symbol_sources) := by
  refine ⟨?_, fun w w1 n v hw => mapKeys_toggle w w1 n v hw,
    fun w w1 hw => (saveSymbolSources_sources w w1 hw).1⟩
  rw [setupSymbolSourceGrid_sources place h d hopen, hP, mem_mapKeys_reconcile]
  simp

/-- C3, amended, at the scenario of the spec: the database holds `"Built-In"`, the persisted
list does not, and the container has no entry of that name. -/
theorem builtIn_only_from_persisted_witness :
    persistedSymbolSources (effectiveSettings
        (scenarioHost ["ModuleA", "ModuleB", "Built-In"])
        (scenarioDialog (storageOf [("ModuleA", true)]))) = [("ModuleA", true)] ∧
      "Built-In" ∉ mapKeys (setupSymbolSourceGrid insertionOrder
        (scenarioHost ["ModuleA", "ModuleB", "Built-In"])
        (newWidget (scenarioDialog (storageOf [("ModuleA", true)])))).m_symbol_sources :=
  ⟨by decide,
    fun hmem => absurd ((builtIn_only_from_persisted insertionOrder
      (scenarioHost ["ModuleA", "ModuleB", "Built-In"])
      (scenarioDialog (storageOf [("ModuleA", true)])) [("ModuleA", true)]
      (fun dlg hd => by cases hd; rfl) (by decide)).1.1 hmem) (by decide)⟩

theorem saveSymbolSources_total (w : DebugAnalysisSettingsWidget)
    (hbox : ∀ e ∈ w.m_symbol_sources, e.2.check_box.map QCheckBox.text = some e.1) :
    ∃ w1, saveSymbolSources w = some w1 := by
  unfold saveSymbolSources
  cases hd : w.m_dialog with
  | none => exact ⟨w, rfl⟩
  | some d =>
    cases hs : d.sif with
    | none => exact ⟨w, by simp only [hs]⟩
    | some sif =>
      simp only [hs, saveSymbolSourcesTo_eq sif w.m_symbol_sources hbox, Option.map_some']
      exact ⟨_, rfl⟩

theorem boundSettings_eq_some (w : DebugAnalysisSettingsWidget) (sif : SettingsInterface)
    (h : boundSettings w = some sif) : ∃ d, w.m_dialog = some d ∧ d.sif = some sif := by
  unfold boundSettings at h
  cases hd : w.m_dialog with
  | none => simp [hd] at h
  | some d =>
    rw [hd] at h
    exact ⟨d, rfl, h⟩

theorem saveSymbolSources_unbound (w : DebugAnalysisSettingsWidget)
    (h : boundSettings w = none) : saveSymbolSources w = some w := by
  unfold saveSymbolSources
  unfold boundSettings at h
  cases hd : w.m_dialog with
  | none => rfl
  | some d =>
    cases hs : d.sif with
    | none => simp only [hs]
    | some sif => simp [hd, hs] at h

/-- C4: `saveSymbolSources` on a reconciled set returns and keeps the set. On a panel bound to
a storage it leaves a storage whose array reads back as exactly the user-modified entries in
iteration order, each as its name with the state of its check box, at the indices
`0 .. k - 1`, with `Count` reading `k`, the number of user-modified entries, so that no pair
read back comes from an entry the user did not modify; a panel bound to no storage is left as
it was. -/
theorem saveSymbolSources_writes_modified (w : DebugAnalysisSettingsWidget)
    (hm : Reconciled w.m_symbol_sources) :
    ∃ w1, saveSymbolSources w = some w1 ∧ w1.m_symbol_sources = w.m_symbol_sources ∧
      (boundSettings w = none → w1 = w) ∧
      (∀ sif, boundSettings w = some sif →
        ∃ sif1, boundSettings w1 = some sif1 ∧
          persistedSymbolSources sif1 = symbolSourcesToSave w.m_symbol_sources ∧
          sif1.GetIntValue "Debugger/Analysis/SymbolSources" "Count" 0 =
            (w.m_symbol_sources.filter (fun e => e.2.modified_by_user)).length ∧
          (symbolSourcesToSave w.m_symbol_sources).length =
            (w.m_symbol_sources.filter (fun e => e.2.modified_by_user)).length ∧
          (∀ j (hj : j < (symbolSourcesToSave w.m_symbol_sources).length),
            sif1.GetStringValue (symbolSourceSection j) "Name" "" =
              ((symbolSourcesToSave w.m_symbol_sources).get ⟨j, hj⟩).1 ∧
            sif1.GetBoolValue (symbolSourceSection j) "ClearDuringAnalysis" false =
              ((symbolSourcesToSave w.m_symbol_sources).get ⟨j, hj⟩).2) ∧
          (∀ n v, (n, v) ∈ persistedSymbolSources sif1 →
            ∃ t, (n, t) ∈ w.m_symbol_sources ∧ t.modified_by_user = true ∧
              t.check_box = some ⟨n, v⟩)) := by
  obtain ⟨w1, hw1⟩ := saveSymbolSources_total w hm.2
  refine ⟨w1, hw1, (saveSymbolSources_sources w w1 hw1).1, ?_, ?_⟩
  · intro hnone
    have := saveSymbolSources_unbound w hnone
    rw [hw1] at this
    exact Option.some.inj this
  · intro sif hsif
    obtain ⟨d, hd, hs⟩ := boundSettings_eq_some w sif hsif
    have hsave := saveSymbolSources_bound w d sif hd hs hm.2
    rw [hw1] at hsave
    have hw1eq := Option.some.inj hsave
    have hread := persistedSymbolSources_savedSettings sif w.m_symbol_sources hm.2
    have hlen := length_symbolSourcesToSave w.m_symbol_sources hm.2
    refine ⟨savedSettings sif w.m_symbol_sources, by rw [hw1eq]; rfl, hread, ?_, ?_, ?_, ?_⟩
    · rw [savedSettings_getCount, countSymbolSourcesToSave_eq]
    · rw [hlen, countSymbolSourcesToSave_eq]
    · intro j hj
      have hget : ∀ (l : List (String × Bool)) (_ : persistedSymbolSources
          (savedSettings sif w.m_symbol_sources) = l) (hj2 : j < l.length),
          (savedSettings sif w.m_symbol_sources).GetStringValue (symbolSourceSection j) "Name" ""
            = (l.get ⟨j, hj2⟩).1 ∧
          (savedSettings sif w.m_symbol_sources).GetBoolValue (symbolSourceSection j)
            "ClearDuringAnalysis" false = (l.get ⟨j, hj2⟩).2 := by
        intro l hl hj2
        subst hl
        simp [persistedSymbolSources]
      exact hget _ hread hj
    · intro n v hmem
      rw [hread, mem_symbolSourcesToSave] at hmem
      obtain ⟨t, ht, hmod, c, hc, hv⟩ := hmem
      refine ⟨t, ht, hmod, ?_⟩
      have := hm.2 (n, t) ht
      simp only [hc, Option.map_some', Option.some.injEq] at this
      rw [hc, ← this, ← hv]

theorem scenarioWidget_eq_setup :
    setupSymbolSourceGrid insertionOrder (scenarioHost ["ModuleA", "ModuleB", "Built-In"])
      (newWidget (scenarioDialog (storageOf [("ModuleA", true)]))) = scenarioWidget := by
  decide

theorem hasSection_storageOf (P : List (String × Bool)) (i : Nat) :
    (storageOf P).hasSection (symbolSourceSection i) = true ↔ i < P.length := by
  unfold storageOf
  by_cases hP : P.length = 0
  · simp [hP, SettingsInterface.hasSection]
  · simp only [hP, if_false]
    rw [hasSection_writePairs, SettingsInterface.SetIntValue, SettingsInterface.hasSection_store]
    simp only [symbolSourceSection_ne_parent, decide_False, Bool.false_or, Nat.zero_add]
    constructor
    · rintro (⟨j, hj, hsec⟩ | hh)
      · rw [symbolSourceSection_injective _ _ hsec]
        exact hj
      · simp [SettingsInterface.hasSection] at hh
    · intro hi
      exact Or.inl ⟨i, hi, rfl⟩

theorem getCount_storageOf (P : List (String × Bool)) :
    (storageOf P).GetIntValue "Debugger/Analysis/SymbolSources" "Count" 0 = P.length := by
  unfold storageOf SettingsInterface.GetIntValue
  by_cases hP : P.length = 0
  · simp [hP, SettingsInterface.lookup]
  · simp only [hP, if_false]
    rw [lookup_writePairs_other _ _ _ _ _
      (fun j _ hh => symbolSourceSection_ne_parent _ hh.symm)]
    simp only [SettingsInterface.SetIntValue, SettingsInterface.lookup_store_same]

theorem storageOf_wellFormed (P : List (String × Bool)) (i : Nat)
    (h : (storageOf P).hasSection (symbolSourceSection i) = true) :
    (i : Int) < (storageOf P).GetIntValue "Debugger/Analysis/SymbolSources" "Count" 0 := by
  rw [getCount_storageOf]
  exact_mod_cast (hasSection_storageOf P i).1 h

theorem lookup_savedSettings_other (sif : SettingsInterface) (m : SymbolSourceMap)
    (sec key : String) (hparent : sec ≠ "Debugger/Analysis/SymbolSources")
    (hindexed : ∀ i, sec ≠ symbolSourceSection i) :
    (savedSettings sif m).lookup sec key = sif.lookup sec key := by
  have hcleared : ((removeOldSections sif
      (sif.GetIntValue "Debugger/Analysis/SymbolSources" "Count" 0)).RemoveSection
        "Debugger/Analysis/SymbolSources").lookup sec key = sif.lookup sec key := by
    rw [SettingsInterface.lookup_RemoveSection_other _ _ _ _ hparent, removeOldSections,
      lookup_removeSections]
    rw [if_neg]
    rintro ⟨j, _, hj⟩
    exact hindexed j hj
  unfold savedSettings
  by_cases hk : countSymbolSourcesToSave m = 0
  · simp only [hk, if_true]
    exact hcleared
  · simp only [hk, if_false]
    rw [lookup_writePairs_other _ _ _ _ _ (fun j _ => hindexed _), SettingsInterface.SetIntValue,
      SettingsInterface.lookup_store_other _ _ _ _ _ _ (fun hh => hparent hh.1)]
    exact hcleared

/-- C5: on a panel bound to a storage whose indexed sections exist only below its `Count`,
`saveSymbolSources` on a reconciled set leaves an indexed section `i` exactly for `i < k`, the
number of user-modified entries, and leaves every other section as it was; when `k = 0` the
`Count` key and every indexed section are gone and the storage holds nothing it did not hold
before. -/
theorem saveSymbolSources_rewrites_array (w : DebugAnalysisSettingsWidget)
    (d : SettingsWindow) (sif : SettingsInterface) (hd : w.m_dialog = some d)
    (hs : d.sif = some sif) (hm : Reconciled w.m_symbol_sources)
    (hwf : ∀ i, sif.hasSection (symbolSourceSection i) = true →
      (i : Int) < sif.GetIntValue "Debugger/Analysis/SymbolSources" "Count" 0) :
    ∃ sif1, saveSymbolSources w = some { w with m_dialog := some { d with sif := some sif1 } } ∧
      (∀ i, sif1.hasSection (symbolSourceSection i) = true ↔
        i < (w.m_symbol_sources.filter (fun e => e.2.modified_by_user)).length) ∧
      (∀ sec key, sec ≠ "Debugger/Analysis/SymbolSources" →
        (∀ i, sec ≠ symbolSourceSection i) → sif1.lookup sec key = sif.lookup sec key) ∧
      ((w.m_symbol_sources.filter (fun e => e.2.modified_by_user)).length = 0 →
        sif1.lookup "Debugger/Analysis/SymbolSources" "Count" = none ∧
        sif1.hasSection "Debugger/Analysis/SymbolSources" = false ∧
        (∀ i, sif1.hasSection (symbolSourceSection i) = false) ∧
        ∀ e ∈ sif1.entries, e ∈ sif.entries) := by
  refine ⟨savedSettings sif w.m_symbol_sources, saveSymbolSources_bound w d sif hd hs hm.2,
    ?_, ?_, ?_⟩
  · intro i
    rw [hasSection_savedSettings sif _ hm.2 hwf i, countSymbolSourcesToSave_eq]
  · intro sec key hparent hindexed
    exact lookup_savedSettings_other sif _ sec key hparent hindexed
  · intro hk
    rw [← countSymbolSourcesToSave_eq] at hk
    have hzero := savedSettings_of_count_zero sif w.m_symbol_sources hk
    refine ⟨?_, hzero.1, ?_, hzero.2⟩
    · rw [savedSettings_count, if_pos hk]
    · intro i
      rw [Bool.eq_false_iff]
      intro hh
      have := (hasSection_savedSettings sif _ hm.2 hwf i).1 hh
      omega

/-- C4 at the scenario of the spec: saving the panel writes `[("ModuleA", true)]`. -/
theorem saveSymbolSources_writes_modified_witness :
    Reconciled scenarioWidget.m_symbol_sources ∧
      ∃ w1 sif1, saveSymbolSources scenarioWidget = some w1 ∧ boundSettings w1 = some sif1 ∧
        persistedSymbolSources sif1 = [("ModuleA", true)] :=
  ⟨by decide,
    match saveSymbolSources_writes_modified scenarioWidget (by decide) with
    | ⟨w1, h1, _, _, h4⟩ =>
      match h4 (storageOf [("ModuleA", true)]) rfl with
      | ⟨sif1, h5, h6, _⟩ => ⟨w1, sif1, h1, h5, h6.trans (by decide)⟩⟩

/-- C5 at the scenario of the spec after `ModuleB` was toggled, where the storage held one
pair and two are saved, and on a panel none of whose sources is user-modified, where the two
persisted pairs and `Count` are removed. -/
theorem saveSymbolSources_rewrites_array_witness :
    Reconciled (toggled scenarioWidget.m_symbol_sources "ModuleB" true) ∧
      (∃ sif1, saveSymbolSources { scenarioWidget with
            m_symbol_sources := toggled scenarioWidget.m_symbol_sources "ModuleB" true } =
          some { scenarioWidget with
            m_dialog := some ⟨some sif1, "SLUS-20312"⟩
            m_symbol_sources := toggled scenarioWidget.m_symbol_sources "ModuleB" true } ∧
        sif1.hasSection (symbolSourceSection 1) = true ∧
        sif1.hasSection (symbolSourceSection 2) = false) ∧
      Reconciled unchosenWidget.m_symbol_sources ∧
      (storageOf [("ModuleA", true), ("ModuleB", false)]).hasSection (symbolSourceSection 1)
        = true ∧
      ∃ sif1, saveSymbolSources unchosenWidget =
          some { unchosenWidget with m_dialog := some ⟨some sif1, "SLUS-20312"⟩ } ∧
        (∀ i, sif1.hasSection (symbolSourceSection i) = false) ∧
        sif1.lookup "Debugger/Analysis/SymbolSources" "Count" = none :=
  ⟨by decide,
    match saveSymbolSources_rewrites_array
      { scenarioWidget with
        m_symbol_sources := toggled scenarioWidget.m_symbol_sources "ModuleB" true }
      ⟨some (storageOf [("ModuleA", true)]), "SLUS-20312"⟩ (storageOf [("ModuleA", true)])
      rfl rfl (by decide) (storageOf_wellFormed [("ModuleA", true)]) with
    | ⟨sif1, h1, h2, _, _⟩ =>
      ⟨sif1, h1, (h2 1).2 (by decide),
        Bool.eq_false_iff.2 (fun hh => absurd ((h2 2).1 hh) (by decide))⟩,
    by decide, by decide,
    match saveSymbolSources_rewrites_array unchosenWidget
      ⟨some (storageOf [("ModuleA", true), ("ModuleB", false)]), "SLUS-20312"⟩
      (storageOf [("ModuleA", true), ("ModuleB", false)]) rfl rfl (by decide)
      (storageOf_wellFormed [("ModuleA", true), ("ModuleB", false)]) with
    | ⟨sif1, h1, _, _, h4⟩ => ⟨sif1, h1, (h4 (by decide)).2.2.1, (h4 (by decide)).1⟩⟩

/-- C6: on a reconciled set, a toggle of a name that is present returns, sets that entry's
`modified_by_user` to true and its check box, whose state is the clear flag that is saved, to
the new value, and leaves every other entry and the names held as they were; a toggle of a
name that is not present leaves the whole panel, its storage included, as it was, and so does
a signal whose sender is not a check box. -/
theorem toggle_marks_entry (w : DebugAnalysisSettingsWidget) (n : String) (v : Bool)
    (hm : Reconciled w.m_symbol_sources) :
    (∀ t, mapFind w.m_symbol_sources n = some t →
      ∃ w1, toggle w n v = some w1 ∧
        mapFind w1.m_symbol_sources n = some ⟨some ⟨n, v⟩, t.previous_value, true⟩ ∧
        (∀ x, x ≠ n → mapFind w1.m_symbol_sources x = mapFind w.m_symbol_sources x) ∧
        mapKeys w1.m_symbol_sources = mapKeys w.m_symbol_sources) ∧
    (mapFind w.m_symbol_sources n = none → toggle w n v = some w) ∧
    symbolSourceCheckStateChanged w none = some w := by
  refine ⟨?_, ?_, rfl⟩
  · intro t ht
    have hn : n ∈ mapKeys w.m_symbol_sources := (mapFind_isSome_iff _ _).1 (by simp [ht])
    have hrec := reconciled_toggled w.m_symbol_sources n v hm
    obtain ⟨w1, hw1⟩ := saveSymbolSources_total
      { w with m_symbol_sources := toggled w.m_symbol_sources n v } hrec.2
    have hsrc := (saveSymbolSources_sources _ _ hw1).1
    simp only at hsrc
    refine ⟨w1, by rw [toggle_of_mem w n v hm hn]; exact hw1, ?_, ?_, ?_⟩
    · rw [hsrc, mapFind_toggled_same, ht]
      rfl
    · intro x hx
      rw [hsrc, mapFind_toggled_other _ _ _ _ hx]
    · rw [hsrc, mapKeys_toggled]
  · intro hnone
    exact toggle_of_not_mem w n v hm ((mapFind_eq_none_iff _ _).1 hnone)

/-- C6 at the scenario of the spec: toggling `ModuleB` to `true` marks it, toggling the
unknown `ModuleC` changes nothing. -/
theorem toggle_marks_entry_witness :
    Reconciled scenarioWidget.m_symbol_sources ∧
      (∃ w1, toggle scenarioWidget "ModuleB" true = some w1 ∧
        mapFind w1.m_symbol_sources "ModuleB" = some ⟨some ⟨"ModuleB", true⟩, false, true⟩) ∧
      toggle scenarioWidget "ModuleC" true = some scenarioWidget :=
  ⟨by decide,
    match (toggle_marks_entry scenarioWidget "ModuleB" true (by decide)).1
      ⟨some ⟨"ModuleB", false⟩, false, false⟩ (by decide) with
    | ⟨w1, h1, h2, _⟩ => ⟨w1, h1, h2⟩,
    (toggle_marks_entry scenarioWidget "ModuleC" true (by decide)).2.1 (by decide)⟩

/-- C7: on a panel bound to a storage that holds pairs of present names only, a toggle of `n`
to `v` on a reconciled set returns, and the pair `(n, v)` is in the sequence to save, and in
the array the storage then holds, exactly when `n` was present; when it was, the toggle has
saved, so the array reads back as the sequence to save. -/
theorem toggle_then_persist (w : DebugAnalysisSettingsWidget) (d : SettingsWindow)
    (sif : SettingsInterface) (n : String) (v : Bool) (hd : w.m_dialog = some d)
    (hs : d.sif = some sif) (hm : Reconciled w.m_symbol_sources)
    (hstore : ∀ p ∈ persistedSymbolSources sif, p.1 ∈ mapKeys w.m_symbol_sources) :
    ∃ w1 sif1, toggle w n v = some w1 ∧ boundSettings w1 = some sif1 ∧
      ((n, v) ∈ symbolSourcesToSave w1.m_symbol_sources ↔ n ∈ mapKeys w.m_symbol_sources) ∧
      ((n, v) ∈ persistedSymbolSources sif1 ↔ n ∈ mapKeys w.m_symbol_sources) ∧
      (n ∈ mapKeys w.m_symbol_sources →
        persistedSymbolSources sif1 = symbolSourcesToSave w1.m_symbol_sources) := by
  by_cases hn : n ∈ mapKeys w.m_symbol_sources
  · have hrec := reconciled_toggled w.m_symbol_sources n v hm
    have hsave := saveSymbolSources_bound
      { w with m_symbol_sources := toggled w.m_symbol_sources n v } d sif hd hs hrec.2
    have hread := persistedSymbolSources_savedSettings sif (toggled w.m_symbol_sources n v) hrec.2
    have hin : (n, v) ∈ symbolSourcesToSave (toggled w.m_symbol_sources n v) := by
      rw [mem_symbolSourcesToSave]
      obtain ⟨t, ht⟩ := Option.isSome_iff_exists.1 ((mapFind_isSome_iff _ _).2 hn)
      refine ⟨⟨some ⟨n, v⟩, t.previous_value, true⟩, ?_, rfl, ⟨n, v⟩, rfl, rfl⟩
      apply mem_of_mapFind
      rw [mapFind_toggled_same, ht]
      rfl
    refine ⟨_, savedSettings sif (toggled w.m_symbol_sources n v),
      by rw [toggle_of_mem w n v hm hn]; exact hsave, ?_, ?_, ?_, ?_⟩
    · simp [boundSettings]
    · simp only [hn, iff_true]
      exact hin
    · simp only [hn, iff_true, hread]
      exact hin
    · intro _
      exact hread
  · refine ⟨w, sif, toggle_of_not_mem w n v hm hn, ?_, ?_, ?_, ?_⟩
    · simp [boundSettings, hd, hs]
    · simp only [hn, iff_false]
      intro hmem
      obtain ⟨t, ht, _⟩ := (mem_symbolSourcesToSave _ _ _).1 hmem
      exact hn (List.mem_map.2 ⟨(n, t), ht, rfl⟩)
    · simp only [hn, iff_false]
      intro hmem
      exact hn (hstore (n, v) hmem)
    · intro hmem
      exact absurd hmem hn

/-- C7 at the scenario of the spec: `ModuleB` was not user-modified; after its toggle to
`true` the storage holds `("ModuleB", true)`. -/
theorem toggle_then_persist_witness :
    Reconciled scenarioWidget.m_symbol_sources ∧
      (∀ p ∈ persistedSymbolSources (storageOf [("ModuleA", true)]),
        p.1 ∈ mapKeys scenarioWidget.m_symbol_sources) ∧
      ∃ w1 sif1, toggle scenarioWidget "ModuleB" true = some w1 ∧
        boundSettings w1 = some sif1 ∧ ("ModuleB", true) ∈ persistedSymbolSources sif1 :=
  ⟨by decide, by decide,
    match toggle_then_persist scenarioWidget
      ⟨some (storageOf [("ModuleA", true)]), "SLUS-20312"⟩ (storageOf [("ModuleA", true)])
      "ModuleB" true rfl rfl (by decide) (by decide) with
    | ⟨w1, sif1, h1, h2, _, h4, _⟩ => ⟨w1, sif1, h1, h2, h4.2 (by decide)⟩⟩

theorem mem_firstOccurrences (l : List String) (x : String) :
    x ∈ firstOccurrences l ↔ x ∈ l := by
  induction l with
  | nil => simp [firstOccurrences]
  | cons y ys ih =>
    simp only [firstOccurrences, List.mem_cons, List.mem_filter, ih, bne_iff_ne, ne_eq]
    by_cases h : x = y <;> simp [h]

theorem firstOccurrences_snoc (l : List String) (x : String) :
    firstOccurrences (l ++ [x]) =
      if x ∈ l then firstOccurrences l else firstOccurrences l ++ [x] := by
  induction l with
  | nil => simp [firstOccurrences]
  | cons y ys ih =>
    have hunfold : ∀ zs : List String,
        firstOccurrences (y :: zs) = y :: (firstOccurrences zs).filter (fun z => z != y) :=
      fun _ => rfl
    rw [List.cons_append, hunfold, hunfold, ih]
    by_cases h1 : x ∈ ys
    · simp [h1]
    · by_cases h2 : x = y
      · subst h2
        simp [h1, List.filter_append]
      · have h3 : ¬ y = x := fun e => h2 e.symm
        simp [h1, h2, h3, List.filter_append]

theorem assignPersisted_snoc (place : KeyPlacement) (m : SymbolSourceMap)
    (P : List (String × Bool)) (p : String × Bool) :
    assignPersisted place m (P ++ [p]) = mapAssign place (assignPersisted place m P) p.1 p.2 true := by
  simp [assignPersisted, List.foldl_append]

theorem mapKeys_assignPersisted_insertionOrder (P : List (String × Bool)) :
    mapKeys (assignPersisted insertionOrder [] P) = firstOccurrences (P.map Prod.fst) := by
  induction P using List.reverseRecOn with
  | nil => rfl
  | append_singleton rest p ih =>
    rw [assignPersisted_snoc, mapKeys_mapAssign_insertionOrder, List.map_append, List.map_singleton,
      firstOccurrences_snoc, ih]
    simp only [mem_firstOccurrences]

theorem mapKeys_addDatabaseSymbolSource_insertionOrder (h : Host) (m : SymbolSourceMap)
    (n : String) :
    mapKeys (addDatabaseSymbolSource insertionOrder h m n) =
      if n ∉ mapKeys m ∧ n ≠ "Built-In" then mapKeys m ++ [n] else mapKeys m := by
  unfold addDatabaseSymbolSource
  by_cases h1 : n ∈ mapKeys m
  · have : (mapFind m n).isNone = false := by
      have := (mapFind_isSome_iff m n).2 h1
      cases hf : mapFind m n <;> simp_all
    simp [this, h1]
  · have : (mapFind m n).isNone = true := by
      rw [(mapFind_eq_none_iff m n).2 h1]; rfl
    by_cases h2 : n = "Built-In"
    · simp [this, h1, h2]
    · simp [this, h1, h2, mapKeys_mapAssign_insertionOrder]

theorem mapKeys_addDatabaseSources_insertionOrder (h : Host) (m : SymbolSourceMap)
    (L : List String) :
    mapKeys (addDatabaseSources insertionOrder h m L) =
      mapKeys m ++
        firstOccurrences (L.filter (fun n => decide (n ∉ mapKeys m) && (n != "Built-In"))) := by
  induction L using List.reverseRecOn with
  | nil => simp [addDatabaseSources, firstOccurrences]
  | append_singleton rest n ih =>
    have hsnoc : addDatabaseSources insertionOrder h m (rest ++ [n]) =
        addDatabaseSymbolSource insertionOrder h (addDatabaseSources insertionOrder h m rest) n := by
      simp [addDatabaseSources, List.foldl_append]
    rw [hsnoc, mapKeys_addDatabaseSymbolSource_insertionOrder, List.filter_append]
    have hmem := mem_mapKeys_addDatabaseSources insertionOrder h rest m n
    by_cases h1 : n ∈ mapKeys m
    · have hin : n ∈ mapKeys (addDatabaseSources insertionOrder h m rest) := hmem.2 (Or.inl h1)
      have hsingle : [n].filter (fun n => decide (n ∉ mapKeys m) && (n != "Built-In")) = [] := by
        simp [h1]
      rw [if_neg (fun hh => hh.1 hin), hsingle, List.append_nil, ih]
    · by_cases h2 : n = "Built-In"
      · have hsingle : [n].filter (fun n => decide (n ∉ mapKeys m) && (n != "Built-In")) = [] := by
          simp [h2]
        rw [if_neg (fun hh => hh.2 h2), hsingle, List.append_nil, ih]
      · have hsingle : [n].filter (fun n => decide (n ∉ mapKeys m) && (n != "Built-In")) = [n] := by
          simp [h1, h2]
        rw [hsingle, firstOccurrences_snoc]
        by_cases h3 : n ∈ rest
        · have hin : n ∈ mapKeys (addDatabaseSources insertionOrder h m rest) :=
            hmem.2 (Or.inr ⟨h3, h2⟩)
          have hfil : n ∈ rest.filter
              (fun n => decide (n ∉ mapKeys m) && (n != "Built-In")) := by
            simp [List.mem_filter, h1, h2, h3]
          rw [if_neg (fun hh => hh.1 hin), if_pos hfil, ih]
        · have hin : n ∉ mapKeys (addDatabaseSources insertionOrder h m rest) := by
            rw [hmem]
            simp [h1, h3]
          have hfil : n ∉ rest.filter
              (fun n => decide (n ∉ mapKeys m) && (n != "Built-In")) := by
            simp [List.mem_filter, h3]
          rw [if_pos ⟨hin, h2⟩, if_neg hfil, ih, List.append_assoc]

theorem symbolSourcesToSave_names_sublist (m : SymbolSourceMap) :
    List.Sublist ((symbolSourcesToSave m).map Prod.fst) (mapKeys m) := by
  induction m with
  | nil => simp [symbolSourcesToSave, mapKeys]
  | cons e rest ih =>
    simp only [symbolSourcesToSave, mapKeys, List.map_cons] at ih ⊢
    by_cases hmod : e.2.modified_by_user = true
    · cases hc : e.2.check_box with
      | none =>
        simp only [List.filter_cons, hmod, if_true, List.filterMap_cons, hc, Option.map_none']
        exact List.Sublist.cons _ ih
      | some c =>
        simp only [List.filter_cons, hmod, if_true, List.filterMap_cons, hc, Option.map_some',
          List.map_cons]
        exact List.Sublist.cons₂ _ ih
    · simp only [List.filter_cons, hmod]
      exact List.Sublist.cons _ ih

theorem mem_names_symbolSourcesToSave (m : SymbolSourceMap) (n : String)
    (hbox : ∀ e ∈ m, e.2.check_box.map QCheckBox.text = some e.1) :
    n ∈ (symbolSourcesToSave m).map Prod.fst ↔ ∃ t, (n, t) ∈ m ∧ t.modified_by_user = true := by
  simp only [List.mem_map, Prod.exists, exists_and_right, exists_eq_right]
  constructor
  · rintro ⟨b, hb⟩
    obtain ⟨t, ht, hmod, _⟩ := (mem_symbolSourcesToSave m n b).1 hb
    exact ⟨t, ht, hmod⟩
  · rintro ⟨t, ht, hmod⟩
    obtain ⟨c, hc, _⟩ := Option.map_eq_some'.1 (hbox (n, t) ht)
    exact ⟨c.checked, (mem_symbolSourcesToSave m n c.checked).2 ⟨t, ht, hmod, c, hc, rfl⟩⟩

theorem exists_last_split (P : List (String × Bool)) (n : String) (v : Bool)
    (hmem : (n, v) ∈ P) (hnd : (P.map Prod.fst).Nodup) :
    ∃ P1 P2, P = P1 ++ (n, v) :: P2 ∧ n ∉ P2.map Prod.fst := by
  obtain ⟨P1, P2, rfl⟩ := List.append_of_mem hmem
  refine ⟨P1, P2, rfl, ?_⟩
  simp only [List.map_append, List.map_cons] at hnd
  have := (List.nodup_middle.1 hnd)
  rw [List.nodup_cons] at this
  intro hin
  exact this.1 (List.mem_append_right _ hin)

/-- C9: on a panel bound to a storage, saving a reconciled set whose unmodified entries are
database sources and which holds every database source (as `setupSymbolSourceGrid` leaves it,
and toggles keep it), then rebuilding from the saved storage with the same database and
policy, gives a container with the same names, in which every user-modified entry is
user-modified again with the saved state of its check box as clear flag, and every other
entry is unmodified again with its policy default. -/
theorem save_then_setup_round_trip (place : KeyPlacement) (h : Host)
    (w : DebugAnalysisSettingsWidget) (d : SettingsWindow) (sif : SettingsInterface)
    (hd : w.m_dialog = some d) (hs : d.sif = some sif)
    (hserial : d.serial = h.GetCurrentGameSerial) (hm : Reconciled w.m_symbol_sources)
    (hdb : ∀ n ∈ h.symbol_sources, n ≠ "Built-In" → n ∈ mapKeys w.m_symbol_sources)
    (hun : ∀ e ∈ w.m_symbol_sources, e.2.modified_by_user = false →
      e.1 ∈ h.symbol_sources ∧ e.1 ≠ "Built-In") :
    ∃ w1, saveSymbolSources w = some w1 ∧
      (∀ n, n ∈ mapKeys (setupSymbolSourceGrid place h (newWidget w1.m_dialog)).m_symbol_sources ↔
        n ∈ mapKeys w.m_symbol_sources) ∧
      (∀ n t c, (n, t) ∈ w.m_symbol_sources → t.modified_by_user = true →
        t.check_box = some c →
        mapFind (setupSymbolSourceGrid place h (newWidget w1.m_dialog)).m_symbol_sources n =
          some ⟨some ⟨n, c.checked⟩, c.checked, true⟩) ∧
      (∀ n t, (n, t) ∈ w.m_symbol_sources → t.modified_by_user = false →
        mapFind (setupSymbolSourceGrid place h (newWidget w1.m_dialog)).m_symbol_sources n =
          some ⟨some ⟨n, h.ShouldClearSymbolsFromSourceByDefault n⟩,
            h.ShouldClearSymbolsFromSourceByDefault n, false⟩) := by
  have hsave := saveSymbolSources_bound w d sif hd hs hm.2
  have hread := persistedSymbolSources_savedSettings sif w.m_symbol_sources hm.2
  have hopen : ∀ dlg, (some { d with sif := some (savedSettings sif w.m_symbol_sources) } :
      Option SettingsWindow) = some dlg → dlg.serial = h.GetCurrentGameSerial := by
    intro dlg hdlg
    simp only [Option.some.injEq] at hdlg
    rw [← hdlg]
    exact hserial
  have hsrc := setupSymbolSourceGrid_sources place h _ hopen
  have heff : effectiveSettings h
      (some { d with sif := some (savedSettings sif w.m_symbol_sources) }) =
      savedSettings sif w.m_symbol_sources := rfl
  rw [heff, hread] at hsrc
  have hnames := mem_names_symbolSourcesToSave w.m_symbol_sources
  refine ⟨_, hsave, ?_, ?_, ?_⟩
  · intro n
    simp only
    rw [hsrc, mem_mapKeys_reconcile, hnames n hm.2]
    constructor
    · rintro (⟨t, ht, _⟩ | ⟨hL, hb⟩)
      · exact List.mem_map.2 ⟨(n, t), ht, rfl⟩
      · exact hdb n hL hb
    · intro hn
      obtain ⟨e, he, rfl⟩ := List.mem_map.1 hn
      by_cases hmod : e.2.modified_by_user = true
      · exact Or.inl ⟨e.2, he, hmod⟩
      · exact Or.inr (hun e he (by simpa using hmod))
  · intro n t c ht hmod hc
    simp only
    rw [hsrc]
    have hin : (n, c.checked) ∈ symbolSourcesToSave w.m_symbol_sources :=
      (mem_symbolSourcesToSave _ _ _).2 ⟨t, ht, hmod, c, hc, rfl⟩
    have hnd : ((symbolSourcesToSave w.m_symbol_sources).map Prod.fst).Nodup :=
      (symbolSourcesToSave_names_sublist w.m_symbol_sources).nodup hm.1
    obtain ⟨P1, P2, hsplit, hlast⟩ := exists_last_split _ n c.checked hin hnd
    rw [hsplit]
    exact mapFind_reconcile_persisted place h P1 P2 n c.checked hlast
  · intro n t ht hmod
    simp only
    rw [hsrc]
    have hL := hun (n, t) ht hmod
    apply mapFind_reconcile_database place h _ n hL.1 _ hL.2
    rw [hnames n hm.2]
    rintro ⟨t2, ht2, hmod2⟩
    have e1 := mapFind_of_mem _ n t hm.1 ht
    have e2 := mapFind_of_mem _ n t2 hm.1 ht2
    rw [e1] at e2
    simp only [Option.some.injEq] at e2
    rw [e2, hmod2] at hmod
    exact Bool.noConfusion hmod

/-- C9 at the scenario of the spec, after `ModuleA` was switched off: the rebuilt container
holds `ModuleA` as user-modified with the saved value and `ModuleB` with the default. -/
theorem save_then_setup_round_trip_witness :
    Reconciled (toggled scenarioWidget.m_symbol_sources "ModuleA" false) ∧
      ∃ w1, saveSymbolSources { scenarioWidget with
          m_symbol_sources := toggled scenarioWidget.m_symbol_sources "ModuleA" false } = some w1 ∧
        mapFind (setupSymbolSourceGrid insertionOrder
          (scenarioHost ["ModuleA", "ModuleB", "Built-In"])
          (newWidget w1.m_dialog)).m_symbol_sources "ModuleA" =
          some ⟨some ⟨"ModuleA", false⟩, false, true⟩ ∧
        mapFind (setupSymbolSourceGrid insertionOrder
          (scenarioHost ["ModuleA", "ModuleB", "Built-In"])
          (newWidget w1.m_dialog)).m_symbol_sources "ModuleB" =
          some ⟨some ⟨"ModuleB", false⟩, false, false⟩ :=
  ⟨by decide,
    match save_then_setup_round_trip insertionOrder
      (scenarioHost ["ModuleA", "ModuleB", "Built-In"])
      { scenarioWidget with
        m_symbol_sources := toggled scenarioWidget.m_symbol_sources "ModuleA" false }
      ⟨some (storageOf [("ModuleA", true)]), "SLUS-20312"⟩ (storageOf [("ModuleA", true)])
      rfl rfl rfl (by decide) (by decide) (by decide) with
    | ⟨w1, h1, _, h3, h4⟩ =>
      ⟨w1, h1,
        h3 "ModuleA" ⟨some ⟨"ModuleA", false⟩, true, true⟩ ⟨"ModuleA", false⟩ (by decide) rfl rfl,
        h4 "ModuleB" ⟨some ⟨"ModuleB", false⟩, false, false⟩ (by decide) rfl⟩⟩

theorem functionScanRangeChanged_unbound (toUInt : String → Nat → Option Nat)
    (w : DebugAnalysisSettingsWidget) (h : boundSettings w = none) :
    functionScanRangeChanged toUInt w = w := by
  unfold functionScanRangeChanged
  unfold boundSettings at h
  cases hd : w.m_dialog with
  | none => rfl
  | some d =>
    cases hs : d.sif with
    | none => simp only [hs]
    | some sif => simp [hd, hs] at h

/-- C10: on a panel bound to a storage, `functionScanRangeChanged` stores the start text
under `FunctionScanStartAddress` exactly when the start text converts with `toUInt(&ok, 16)`
and otherwise leaves that key as it was, does the same with the end text and
`FunctionScanEndAddress`, each whatever the other text is, changes no other key, and changes
nothing but the storage; a panel bound to no storage is left as it was. -/
theorem functionScanRangeChanged_each_bound (toUInt : String → Nat → Option Nat)
    (w : DebugAnalysisSettingsWidget) :
    (boundSettings w = none → functionScanRangeChanged toUInt w = w) ∧
    (∀ sif, boundSettings w = some sif →
      ∃ sif1, boundSettings (functionScanRangeChanged toUInt w) = some sif1 ∧
        (functionScanRangeChanged toUInt w).m_symbol_sources = w.m_symbol_sources ∧
        (functionScanRangeChanged toUInt w).m_ui = w.m_ui ∧
        sif1.lookup "Debugger/Analysis" "FunctionScanStartAddress" =
          (if (toUInt w.m_ui.addressRangeStart 16).isSome then
            some (.str w.m_ui.addressRangeStart)
          else sif.lookup "Debugger/Analysis" "FunctionScanStartAddress") ∧
        sif1.lookup "Debugger/Analysis" "FunctionScanEndAddress" =
          (if (toUInt w.m_ui.addressRangeEnd 16).isSome then
            some (.str w.m_ui.addressRangeEnd)
          else sif.lookup "Debugger/Analysis" "FunctionScanEndAddress") ∧
        (∀ sec key, ¬ (sec = "Debugger/Analysis" ∧ key = "FunctionScanStartAddress") →
          ¬ (sec = "Debugger/Analysis" ∧ key = "FunctionScanEndAddress") →
          sif1.lookup sec key = sif.lookup sec key)) := by
  have hne1 : ¬ ("Debugger/Analysis" = "Debugger/Analysis" ∧
      "FunctionScanStartAddress" = "FunctionScanEndAddress") := by decide
  have hne2 : ¬ ("Debugger/Analysis" = "Debugger/Analysis" ∧
      "FunctionScanEndAddress" = "FunctionScanStartAddress") := by decide
  refine ⟨functionScanRangeChanged_unbound toUInt w, ?_⟩
  intro sif hsif
  obtain ⟨d, hd, hs⟩ := boundSettings_eq_some w sif hsif
  have hrun : functionScanRangeChanged toUInt w =
      { w with m_dialog := some { d with sif := some (storedScanRange toUInt w.m_ui sif) } } := by
    unfold functionScanRangeChanged
    simp only [hd, hs]
    rfl
  rw [hrun]
  refine ⟨_, rfl, rfl, rfl, ?_, ?_, ?_⟩ <;> unfold storedScanRange
  · by_cases h1 : (toUInt w.m_ui.addressRangeStart 16).isSome = true <;>
      by_cases h2 : (toUInt w.m_ui.addressRangeEnd 16).isSome = true <;>
      simp only [h1, h2, if_true, if_false, SettingsInterface.SetStringValue,
        SettingsInterface.lookup_store_other _ _ _ _ _ _ hne1,
        SettingsInterface.lookup_store_same, Bool.false_eq_true]
  · by_cases h1 : (toUInt w.m_ui.addressRangeStart 16).isSome = true <;>
      by_cases h2 : (toUInt w.m_ui.addressRangeEnd 16).isSome = true <;>
      simp only [h1, h2, if_true, if_false, SettingsInterface.SetStringValue,
        SettingsInterface.lookup_store_other _ _ _ _ _ _ hne2,
        SettingsInterface.lookup_store_same, Bool.false_eq_true]
  · intro sec key hk1 hk2
    by_cases h1 : (toUInt w.m_ui.addressRangeStart 16).isSome = true <;>
      by_cases h2 : (toUInt w.m_ui.addressRangeEnd 16).isSome = true <;>
      simp only [h1, h2, if_true, if_false, SettingsInterface.SetStringValue,
        SettingsInterface.lookup_store_other _ _ _ _ _ _ hk1,
        SettingsInterface.lookup_store_other _ _ _ _ _ _ hk2, Bool.false_eq_true]

/-- C10 with a valid start `1f0000` and an invalid end `0xZZ`: the start is stored, the stored

end stays `2000000`. -/

theorem functionScanRangeChanged_each_bound_witness :
    (digitsToUInt "1f0000" 16).isSome = true ∧ (digitsToUInt "0xZZ" 16).isSome = false ∧
      ∃ sif1, boundSettings (functionScanRangeChanged digitsToUInt rangeWidget) = some sif1 ∧
        sif1.GetStringValue "Debugger/Analysis" "FunctionScanStartAddress" "0" = "1f0000" ∧
        sif1.GetStringValue "Debugger/Analysis" "FunctionScanEndAddress" "0" = "2000000" :=
  ⟨by decide, by decide,
    match (functionScanRangeChanged_each_bound digitsToUInt rangeWidget).2
      ((⟨[]⟩ : SettingsInterface).SetStringValue "Debugger/Analysis" "FunctionScanEndAddress"
        "2000000") rfl with
    | ⟨sif1, h1, _, _, h2, h3, _⟩ =>
      ⟨sif1, h1,
        by rw [SettingsInterface.GetStringValue, h2]; decide,
        by rw [SettingsInterface.GetStringValue, h3]; decide⟩⟩

/-! ## The hypotheses of the properties are invariants of the panel -/

theorem exists_last_occurrence (P : List (String × Bool)) (n : String)
    (hn : n ∈ P.map Prod.fst) :
    ∃ P1 v P2, P = P1 ++ (n, v) :: P2 ∧ n ∉ P2.map Prod.fst := by
  induction P with
  | nil => simp at hn
  | cons p rest ih =>
    by_cases hrest : n ∈ rest.map Prod.fst
    · obtain ⟨P1, v, P2, hsplit, hlast⟩ := ih hrest
      exact ⟨p :: P1, v, P2, by rw [hsplit]; rfl, hlast⟩
    · have hp : p.1 = n := by
        rcases List.mem_cons.1 hn with h1 | h1
        · exact h1.symm
        · exact absurd h1 hrest
      exact ⟨[], p.2, rest, by rw [← hp]; rfl, hrest⟩

/-- What `setupSymbolSourceGrid` establishes: the container is a reconciled set, it holds
every database source other than `"Built-In"`, every entry the user did not choose is such a
database source, and every persisted name is held. -/
theorem setupSymbolSourceGrid_establishes (place : KeyPlacement) (h : Host)
    (d : Option SettingsWindow)
    (hopen : ∀ dlg, d = some dlg → dlg.serial = h.GetCurrentGameSerial) :
    Reconciled (setupSymbolSourceGrid place h (newWidget d)).m_symbol_sources ∧
      (∀ n ∈ h.symbol_sources, n ≠ "Built-In" →
        n ∈ mapKeys (setupSymbolSourceGrid place h (newWidget d)).m_symbol_sources) ∧
      (∀ e ∈ (setupSymbolSourceGrid place h (newWidget d)).m_symbol_sources,
        e.2.modified_by_user = false → e.1 ∈ h.symbol_sources ∧ e.1 ≠ "Built-In") ∧
      (∀ p ∈ persistedSymbolSources (effectiveSettings h d),
        p.1 ∈ mapKeys (setupSymbolSourceGrid place h (newWidget d)).m_symbol_sources) := by
  rw [setupSymbolSourceGrid_sources place h d hopen]
  refine ⟨?_, ?_, ?_, ?_⟩
  · exact reconciled_withCheckBoxes _ (by
      apply nodup_mapKeys_addDatabaseSources
      apply nodup_mapKeys_assignPersisted
      simp [mapKeys])
  · intro n hL hb
    exact (mem_mapKeys_reconcile place h _ n).2 (Or.inr ⟨hL, hb⟩)
  · intro e he hmod
    have hkey : e.1 ∈ mapKeys (reconcile place h
        (persistedSymbolSources (effectiveSettings h d))) := List.mem_map.2 ⟨e, he, rfl⟩
    rcases (mem_mapKeys_reconcile place h _ e.1).1 hkey with hP | hL
    · exfalso
      obtain ⟨P1, v, P2, hsplit, hlast⟩ := exists_last_occurrence _ e.1 hP
      have hfind := mapFind_reconcile_persisted place h P1 P2 e.1 v hlast
      rw [← hsplit, mapFind_of_mem _ e.1 e.2 (nodup_mapKeys_reconcile place h _) he] at hfind
      simp only [Option.some.injEq] at hfind
      rw [hfind] at hmod
      exact Bool.noConfusion hmod
    · exact hL
  · intro p hp
    exact (mem_mapKeys_reconcile place h _ p.1).2 (Or.inl (List.mem_map.2 ⟨p, hp, rfl⟩))

/-- A toggle keeps what `setupSymbolSourceGrid` establishes. -/
theorem toggled_keeps (L : List String) (m : SymbolSourceMap) (n : String) (v : Bool)
    (hm : Reconciled m) (hdb : ∀ x ∈ L, x ≠ "Built-In" → x ∈ mapKeys m)
    (hun : ∀ e ∈ m, e.2.modified_by_user = false → e.1 ∈ L ∧ e.1 ≠ "Built-In") :
    Reconciled (toggled m n v) ∧ (∀ x ∈ L, x ≠ "Built-In" → x ∈ mapKeys (toggled m n v)) ∧
      (∀ e ∈ toggled m n v, e.2.modified_by_user = false → e.1 ∈ L ∧ e.1 ≠ "Built-In") := by
  refine ⟨reconciled_toggled m n v hm, ?_, ?_⟩
  · intro x hx hb
    rw [mapKeys_toggled]
    exact hdb x hx hb
  · intro e he hmod
    rcases mem_mapUpdate _ n _ e he with ⟨_, h1⟩ | ⟨_, t, _, hft⟩
    · rcases mem_mapUpdate _ n _ e h1 with ⟨_, h2⟩ | ⟨_, t2, ht2, hft2⟩
      · exact hun e h2 hmod
      · rename_i hne heq
        exact absurd heq hne
    · rw [hft] at hmod
      exact Bool.noConfusion hmod

/-! ## Iteration order -/

theorem data_lt_iff (a b : String) : a.data < b.data ↔ a < b :=
  String.lt_iff_toList_lt.symm

theorem pairwise_lt_insert (l : List String) (n : String) (hl : l.Pairwise (fun a b => a < b))
    (hn : n ∉ l) :
    (l.take (l.filter (fun k => decide (k.data < n.data))).length ++
      n :: l.drop (l.filter (fun k => decide (k.data < n.data))).length).Pairwise
        (fun a b => a < b) := by
  induction l with
  | nil => simp
  | cons a rest ih =>
    rw [List.pairwise_cons] at hl
    have hna : n ≠ a := fun e => hn (by rw [e]; exact List.mem_cons_self _ _)
    have hnrest : n ∉ rest := fun e => hn (List.mem_cons_of_mem _ e)
    by_cases ha : a < n
    · have hdec : decide (a.data < n.data) = true := by
        simpa using (data_lt_iff a n).2 ha
      simp only [List.filter_cons, hdec, if_true, List.length_cons, List.take_succ_cons,
        List.drop_succ_cons, List.cons_append]
      rw [List.pairwise_cons]
      refine ⟨?_, ih hl.2 hnrest⟩
      intro x hx
      rcases List.mem_append.1 hx with h1 | h1
      · exact hl.1 x (List.mem_of_mem_take h1)
      · rcases List.mem_cons.1 h1 with h2 | h2
        · rw [h2]; exact ha
        · exact hl.1 x (List.mem_of_mem_drop h2)
    · have hlt : n < a := by
        rcases lt_or_gt_of_ne hna with h1 | h1
        · exact h1
        · exact absurd h1 ha
      have hdec : decide (a.data < n.data) = false := by
        simpa using fun hh => ha ((data_lt_iff a n).1 hh)
      have hnil : rest.filter (fun k => decide (k.data < n.data)) = [] := by
        rw [List.filter_eq_nil_iff]
        intro x hx hxn
        have hxlt : x < n := (data_lt_iff x n).1 (by simpa using hxn)
        exact lt_asymm (lt_trans hxlt hlt) (hl.1 x hx)
      simp only [List.filter_cons, hdec, hnil, Bool.false_eq_true, if_false, List.length_nil,
        List.take_zero, List.drop_zero, List.nil_append]
      rw [List.pairwise_cons, List.pairwise_cons]
      refine ⟨?_, hl⟩
      intro x hx
      rcases List.mem_cons.1 hx with h2 | h2
      · rw [h2]; exact hlt
      · exact lt_trans hlt (hl.1 x h2)

theorem pairwise_mapKeys_mapAssign_keyOrder (m : SymbolSourceMap) (n : String) (v u : Bool)
    (hm : (mapKeys m).Pairwise (fun a b => a < b)) :
    (mapKeys (mapAssign keyOrder m n v u)).Pairwise (fun a b => a < b) := by
  simp only [mapAssign, mapKeys_mapUpdate, mapKeys_mapSubscript]
  split
  · exact hm
  · rename_i hn
    exact pairwise_lt_insert (mapKeys m) n hm hn

theorem pairwise_mapKeys_reconcile_keyOrder (h : Host) (P : List (String × Bool)) :
    (mapKeys (reconcile keyOrder h P)).Pairwise (fun a b => a < b) := by
  have h1 : ∀ (Q : List (String × Bool)) (m : SymbolSourceMap),
      (mapKeys m).Pairwise (fun a b => a < b) →
      (mapKeys (assignPersisted keyOrder m Q)).Pairwise (fun a b => a < b) := by
    intro Q
    induction Q with
    | nil => intro m hm; exact hm
    | cons p rest ih =>
      intro m hm
      exact ih _ (pairwise_mapKeys_mapAssign_keyOrder m p.1 p.2 true hm)
  have h2 : ∀ (L : List String) (m : SymbolSourceMap),
      (mapKeys m).Pairwise (fun a b => a < b) →
      (mapKeys (addDatabaseSources keyOrder h m L)).Pairwise (fun a b => a < b) := by
    intro L
    induction L with
    | nil => intro m hm; exact hm
    | cons n rest ih =>
      intro m hm
      apply ih
      unfold addDatabaseSymbolSource
      split
      · exact pairwise_mapKeys_mapAssign_keyOrder m n _ false hm
      · exact hm
  rw [reconcile, mapKeys_withCheckBoxes]
  exact h2 _ _ (h1 P [] (by simp [mapKeys]))

theorem modified_iff_persisted (place : KeyPlacement) (h : Host) (P : List (String × Bool))
    (e : String × SymbolSourceTemp) (he : e ∈ reconcile place h P) :
    e.2.modified_by_user = decide (e.1 ∈ P.map Prod.fst) := by
  have hfind := mapFind_of_mem _ e.1 e.2 (nodup_mapKeys_reconcile place h P) he
  by_cases hP : e.1 ∈ P.map Prod.fst
  · obtain ⟨P1, v, P2, hsplit, hlast⟩ := exists_last_occurrence P e.1 hP
    have := mapFind_reconcile_persisted place h P1 P2 e.1 v hlast
    rw [← hsplit, hfind] at this
    simp only [Option.some.injEq] at this
    rw [this]
    simp [hP]
  · have hkey : e.1 ∈ mapKeys (reconcile place h P) := List.mem_map.2 ⟨e, he, rfl⟩
    rcases (mem_mapKeys_reconcile place h P e.1).1 hkey with h1 | h1
    · exact absurd h1 hP
    · have := mapFind_reconcile_database place h P e.1 h1.1 hP h1.2
      rw [hfind] at this
      simp only [Option.some.injEq] at this
      rw [this]
      simp [hP]

theorem names_symbolSourcesToSave (m : SymbolSourceMap)
    (hbox : ∀ e ∈ m, e.2.check_box.map QCheckBox.text = some e.1) :
    (symbolSourcesToSave m).map Prod.fst = mapKeys (m.filter (fun e => e.2.modified_by_user)) := by
  induction m with
  | nil => rfl
  | cons e rest ih =>
    have ih2 := ih (fun x hx => hbox x (List.mem_cons_of_mem _ hx))
    obtain ⟨c, hc, _⟩ := Option.map_eq_some'.1 (hbox e (List.mem_cons_self _ _))
    simp only [symbolSourcesToSave, mapKeys] at ih2 ⊢
    by_cases hmod : e.2.modified_by_user = true
    · simp only [List.filter_cons, hmod, if_true, List.filterMap_cons, hc, Option.map_some',
        List.map_cons, ih2]
    · simp only [List.filter_cons, hmod, Bool.false_eq_true, if_false, ih2]

theorem mapKeys_filter_modified (place : KeyPlacement) (h : Host) (P : List (String × Bool)) :
    mapKeys ((reconcile place h P).filter (fun e => e.2.modified_by_user)) =
      (mapKeys (reconcile place h P)).filter (fun n => decide (n ∈ P.map Prod.fst)) := by
  rw [mapKeys, mapKeys, List.filter_map]
  congr 1
  apply List.filter_congr
  intro e he
  exact modified_iff_persisted place h P e he

theorem setupSymbolSourceGrid_dialog (place : KeyPlacement) (h : Host)
    (w : DebugAnalysisSettingsWidget) : (setupSymbolSourceGrid place h w).m_dialog = w.m_dialog := by
  unfold setupSymbolSourceGrid
  simp only
  split
  · split <;> rfl
  · rfl

/-- C8, as stated, fails for a key-ordered container: with the persisted names `ModuleB`,
`ModuleA`, `ModuleB` and the database names `Zeta`, `ModuleB`, `Alpha`, `Zeta`, the container
iterates, and lays out its check boxes, in key order, not in insertion order. -/
theorem keyOrder_iteration_is_not_insertion_order :
    persistedSymbolSources (effectiveSettings (scenarioHost ["Zeta", "ModuleB", "Alpha", "Zeta"])
        (scenarioDialog (storageOf [("ModuleB", true), ("ModuleA", false), ("ModuleB", false)])))
        = [("ModuleB", true), ("ModuleA", false), ("ModuleB", false)] ∧
      mapKeys (setupSymbolSourceGrid keyOrder (scenarioHost ["Zeta", "ModuleB", "Alpha", "Zeta"])
        (newWidget (scenarioDialog (storageOf
          [("ModuleB", true), ("ModuleA", false), ("ModuleB", false)])))).m_symbol_sources =
        ["Alpha", "ModuleA", "ModuleB", "Zeta"] ∧
      mapKeys (setupSymbolSourceGrid keyOrder (scenarioHost ["Zeta", "ModuleB", "Alpha", "Zeta"])
        (newWidget (scenarioDialog (storageOf
          [("ModuleB", true), ("ModuleA", false), ("ModuleB", false)])))).m_symbol_sources ≠
        firstOccurrences ["ModuleB", "ModuleA", "ModuleB"] ++
          firstOccurrences (["Zeta", "ModuleB", "Alpha", "Zeta"].filter
            (fun n => decide (n ∉ ["ModuleB", "ModuleA", "ModuleB"]) && (n != "Built-In"))) ∧
      (setupSymbolSourceGrid keyOrder (scenarioHost ["Zeta", "ModuleB", "Alpha", "Zeta"])
        (newWidget (scenarioDialog (storageOf
          [("ModuleB", true), ("ModuleA", false), ("ModuleB", false)])))).m_ui.symbolSourceGrid =
        [("Alpha", 0, 0), ("ModuleA", 0, 1), ("ModuleB", 1, 0), ("Zeta", 1, 1)] := by
  decide

/-- C8, amended: the order of iteration over the container `setupSymbolSourceGrid` builds is
the order of the container type of `m_symbol_sources`, whatever that is, and it decides both
the grid position of each check box (entry `i` at row `i / 2`, column `i % 2`) and the order
of the array `saveSymbolSources` stores, which holds the user-modified entries, after the
build those named by `P`, in iteration order. With an insertion-ordered container that order
is first the names of `P` by first occurrence, then the database-only names by first
occurrence in `L`; with a key-ordered container it is increasing key order. -/
theorem setupSymbolSourceGrid_iteration_order (place : KeyPlacement) (h : Host)
    (d : Option SettingsWindow) (P : List (String × Bool))
    (hopen : ∀ dlg, d = some dlg → dlg.serial = h.GetCurrentGameSerial)
    (hP : persistedSymbolSources (effectiveSettings h d) = P) :
    (setupSymbolSourceGrid place h (newWidget d)).m_ui.symbolSourceGrid =
        ((mapKeys (setupSymbolSourceGrid place h (newWidget d)).m_symbol_sources).enum).map
          (fun p => (p.2, p.1 / 2, p.1 % 2)) ∧
      (∀ sif, boundSettings (setupSymbolSourceGrid place h (newWidget d)) = some sif →
        ∃ w1 sif1, saveSymbolSources (setupSymbolSourceGrid place h (newWidget d)) = some w1 ∧
          boundSettings w1 = some sif1 ∧
          (persistedSymbolSources sif1).map Prod.fst =
            (mapKeys (setupSymbolSourceGrid place h (newWidget d)).m_symbol_sources).filter
              (fun n => decide (n ∈ P.map Prod.fst))) ∧
      (∀ w sif, Reconciled w.m_symbol_sources → boundSettings w = some sif →
        ∃ w1 sif1, saveSymbolSources w = some w1 ∧ boundSettings w1 = some sif1 ∧
          (persistedSymbolSources sif1).map Prod.fst =
            mapKeys (w.m_symbol_sources.filter (fun e => e.2.modified_by_user))) ∧
      mapKeys (setupSymbolSourceGrid insertionOrder h (newWidget d)).m_symbol_sources =
        firstOccurrences (P.map Prod.fst) ++
          firstOccurrences (h.symbol_sources.filter
            (fun n => decide (n ∉ P.map Prod.fst) && (n != "Built-In"))) ∧
      (mapKeys (setupSymbolSourceGrid keyOrder h (newWidget d)).m_symbol_sources).Pairwise
        (fun a b => a < b) := by
  have hsaved : ∀ w sif, Reconciled w.m_symbol_sources → boundSettings w = some sif →
      ∃ w1 sif1, saveSymbolSources w = some w1 ∧ boundSettings w1 = some sif1 ∧
        (persistedSymbolSources sif1).map Prod.fst =
          mapKeys (w.m_symbol_sources.filter (fun e => e.2.modified_by_user)) := by
    intro w sif hm hsif
    obtain ⟨dlg, hd, hs⟩ := boundSettings_eq_some w sif hsif
    refine ⟨_, savedSettings sif w.m_symbol_sources,
      saveSymbolSources_bound w dlg sif hd hs hm.2, rfl, ?_⟩
    rw [persistedSymbolSources_savedSettings sif w.m_symbol_sources hm.2,
      names_symbolSourcesToSave w.m_symbol_sources hm.2]
  refine ⟨setupSymbolSourceGrid_grid place h d hopen, ?_, hsaved, ?_, ?_⟩
  · intro sif hsif
    obtain ⟨w1, sif1, h1, h2, h3⟩ := hsaved _ sif
      (setupSymbolSourceGrid_establishes place h d hopen).1 hsif
    refine ⟨w1, sif1, h1, h2, ?_⟩
    rw [h3, setupSymbolSourceGrid_sources place h d hopen, hP]
    exact mapKeys_filter_modified place h P
  · rw [setupSymbolSourceGrid_sources insertionOrder h d hopen, hP, reconcile,
      mapKeys_withCheckBoxes, mapKeys_addDatabaseSources_insertionOrder,
      mapKeys_assignPersisted_insertionOrder]
    simp only [mem_firstOccurrences]
  · rw [setupSymbolSourceGrid_sources keyOrder h d hopen]
    exact pairwise_mapKeys_reconcile_keyOrder h _

/-- C8, amended, on a persisted list and a database that repeat names and are not in key
order: in an insertion-ordered container the names come in insertion order, and in a
key-ordered one the boxes are laid out, and the names saved, in key order. -/
theorem setupSymbolSourceGrid_iteration_order_witness :
    persistedSymbolSources (effectiveSettings (scenarioHost ["Zeta", "ModuleB", "Alpha", "Zeta"])
        (scenarioDialog (storageOf [("ModuleB", true), ("ModuleA", false), ("ModuleB", false)])))
        = [("ModuleB", true), ("ModuleA", false), ("ModuleB", false)] ∧
      mapKeys (setupSymbolSourceGrid insertionOrder
        (scenarioHost ["Zeta", "ModuleB", "Alpha", "Zeta"])
        (newWidget (scenarioDialog (storageOf
          [("ModuleB", true), ("ModuleA", false), ("ModuleB", false)])))).m_symbol_sources =
        ["ModuleB", "ModuleA", "Zeta", "Alpha"] ∧
      (setupSymbolSourceGrid keyOrder (scenarioHost ["Zeta", "ModuleB", "Alpha", "Zeta"])
        (newWidget (scenarioDialog (storageOf
          [("ModuleB", true), ("ModuleA", false), ("ModuleB", false)])))).m_ui.symbolSourceGrid =
        [("Alpha", 0, 0), ("ModuleA", 0, 1), ("ModuleB", 1, 0), ("Zeta", 1, 1)] ∧
      ∃ w1 sif1, saveSymbolSources (setupSymbolSourceGrid keyOrder
          (scenarioHost ["Zeta", "ModuleB", "Alpha", "Zeta"])
          (newWidget (scenarioDialog (storageOf
            [("ModuleB", true), ("ModuleA", false), ("ModuleB", false)])))) = some w1 ∧
        boundSettings w1 = some sif1 ∧
        (persistedSymbolSources sif1).map Prod.fst = ["ModuleA", "ModuleB"] :=
  ⟨by decide,
    ((setupSymbolSourceGrid_iteration_order keyOrder
      (scenarioHost ["Zeta", "ModuleB", "Alpha", "Zeta"])
      (scenarioDialog (storageOf [("ModuleB", true), ("ModuleA", false), ("ModuleB", false)]))
      [("ModuleB", true), ("ModuleA", false), ("ModuleB", false)]
      (fun dlg hd => by cases hd; rfl) (by decide)).2.2.2.1).trans (by decide),
    ((setupSymbolSourceGrid_iteration_order keyOrder
      (scenarioHost ["Zeta", "ModuleB", "Alpha", "Zeta"])
      (scenarioDialog (storageOf [("ModuleB", true), ("ModuleA", false), ("ModuleB", false)]))
      [("ModuleB", true), ("ModuleA", false), ("ModuleB", false)]
      (fun dlg hd => by cases hd; rfl) (by decide)).1).trans (by decide),
    match (setupSymbolSourceGrid_iteration_order keyOrder
      (scenarioHost ["Zeta", "ModuleB", "Alpha", "Zeta"])
      (scenarioDialog (storageOf [("ModuleB", true), ("ModuleA", false), ("ModuleB", false)]))
      [("ModuleB", true), ("ModuleA", false), ("ModuleB", false)]
      (fun dlg hd => by cases hd; rfl) (by decide)).2.1
      (storageOf [("ModuleB", true), ("ModuleA", false), ("ModuleB", false)]) (by decide) with
    | ⟨w1, sif1, h1, h2, h3⟩ => ⟨w1, sif1, h1, h2, h3.trans (by decide)⟩⟩

end DebugAnalysis
